import Mathlib

/-!
Verification development for the pingpong league server
(`server/index.ts`).  The statistics core of the server is embedded
shallowly: TypeScript objects become Lean structures, the mutable
`Map`s used by the computation become insertion-ordered association
lists, and the (stable) JavaScript `Array.prototype.sort` becomes
`List.insertionSort` with the very comparator used by the source.

JavaScript numbers are IEEE doubles.  Every quantity handled by the
statistics core is integral (scores, counters, Elo ratings after
`Math.round`) except the Elo expected score
`Ea = 1 / (1 + 10 ** ((Rb - Ra) / 400))` and win-rate ratios.  Ratios
are modelled exactly over `ℚ`.  The transcendental expected-score
expression is abstracted as an explicit parameter
`Ea : ℤ → ℤ → ℚ` of the engine (every theorem below is universally
quantified over it, hence holds for the value computed by the real
expression; the only pointwise fact any claim needs is
`Ea r r = 1 / 2`, which holds exactly for the source expression —
`10 ** 0` is exactly `1` even in floating point).  `Math.round` is
Mathlib's `round` (`round x = ⌊x + 1/2⌋`, identical to JavaScript on
every value the engine can produce).
-/

namespace PingPong

/-- A match row together with the relations the server always loads
(`playerOne`, `playerTwo`, `season`); mirrors `MatchWithRelations` in
`server/index.ts`.  `playedAt` is the timestamp in epoch milliseconds,
`seasonId` is the id of the associated season (`null` becomes
`none`). -/
structure MatchWithRelations where
  id : ℤ
  playerOneId : ℤ
  playerTwoId : ℤ
  playerOneName : String
  playerTwoName : String
  playerOnePoints : ℤ
  playerTwoPoints : ℤ
  winnerId : ℤ
  playedAt : ℤ
  seasonId : Option ℤ
  deriving Repr, DecidableEq

/-- One value of the `statsMap` built by `calculateSeasonStandings`. -/
structure StatsEntry where
  playerId : ℤ
  playerName : String
  wins : ℤ
  losses : ℤ
  -- the source field is `matches`, a reserved word in Lean
  matchesPlayed : ℤ
  pointsFor : ℤ
  pointsAgainst : ℤ
  rating : ℤ
  deriving Repr, DecidableEq

/-- The `SeasonStanding` record returned by `calculateSeasonStandings`. -/
structure SeasonStanding where
  playerId : ℤ
  playerName : String
  wins : ℤ
  losses : ℤ
  -- the source field is `matches`, a reserved word in Lean
  matchesPlayed : ℤ
  pointsFor : ℤ
  pointsAgainst : ℤ
  winRate : ℚ
  rating : ℤ
  pointDifferential : ℤ
  deriving Repr, DecidableEq

/-- `BASE_RATING` of `calculateSeasonStandings` / `computeEloDeltas`. -/
def BASE_RATING : ℤ := 1000

/-- The Elo `K` factor of the source (`K = 32`). -/
def K : ℚ := 32

/-- `[...matches].sort((a, b) => a.playedAt.getTime() - b.playedAt.getTime())`:
JavaScript `sort` is stable, so it is the stable insertion sort by the
non-strict comparator relation. -/
def sortByPlayedAt (ms : List MatchWithRelations) : List MatchWithRelations :=
  List.insertionSort (fun a b => a.playedAt ≤ b.playedAt) ms

/-- A fresh `statsMap` entry (`wins: 0, ..., rating: BASE_RATING`). -/
def initialEntry (pid : ℤ) (pname : String) : StatsEntry :=
  { playerId := pid, playerName := pname, wins := 0, losses := 0, matchesPlayed := 0,
    pointsFor := 0, pointsAgainst := 0, rating := BASE_RATING }

/-- `if (!statsMap.has(p.id)) statsMap.set(p.id, {...})`: a JavaScript
`Map` keeps insertion order, so the map is an association list and a
fresh entry is appended at the end. -/
def ensurePlayerEntry (entries : List StatsEntry) (pid : ℤ) (pname : String) :
    List StatsEntry :=
  if entries.any (fun e => e.playerId == pid) then entries
  else entries ++ [initialEntry pid pname]

/-- The first loop of `calculateSeasonStandings`: seed an entry for
every player appearing in some match, in order of first appearance
(`playerOne` before `playerTwo`). -/
def initStatsMap (ms : List MatchWithRelations) : List StatsEntry :=
  ms.foldl
    (fun es m =>
      ensurePlayerEntry (ensurePlayerEntry es m.playerOneId m.playerOneName)
        m.playerTwoId m.playerTwoName)
    []

/-- In-place mutation of the entry stored under `pid`
(`statsMap.get(pid)!` followed by field assignments). -/
def updateEntry (entries : List StatsEntry) (pid : ℤ) (f : StatsEntry → StatsEntry) :
    List StatsEntry :=
  entries.map (fun e => if e.playerId = pid then f e else e)

/-- The current rating of `pid` in the `statsMap`.  The default `1000`
is never reached by the engine (the map is seeded with every player
first, backing the source's non-null assertion `statsMap.get(...)!`);
it coincides with `BASE_RATING` so that the lazily initialised rating
map of `computeEloDeltas` can be compared against it pointwise. -/
def entryRating (entries : List StatsEntry) (pid : ℤ) : ℤ :=
  match entries.find? (fun e => e.playerId == pid) with
  | some e => e.rating
  | none => BASE_RATING

/-- The body of the chronological loop of `calculateSeasonStandings`:
tally the aggregate stats of the two sides, then apply the Elo update
`entryOne.rating = Math.round(Ra + K * (Sa - Ea))`,
`entryTwo.rating = Math.round(Rb + K * (Sb - Eb))` (with
`Eb = 1 - Ea`).  `Ra`/`Rb` are read before either entry is written,
and the `playerOne` entry is written before the `playerTwo` entry,
exactly as the source mutates the shared objects. -/
def processMatch (Ea : ℤ → ℤ → ℚ) (entries : List StatsEntry)
    (m : MatchWithRelations) : List StatsEntry :=
  let Ra := entryRating entries m.playerOneId
  let Rb := entryRating entries m.playerTwoId
  let e := Ea Ra Rb
  let winnerIsOne := m.winnerId = m.playerOneId
  let Sa : ℚ := if winnerIsOne then 1 else 0
  let Sb : ℚ := if winnerIsOne then 0 else 1
  let step1 := updateEntry entries m.playerOneId (fun en =>
    { en with
      matchesPlayed := en.matchesPlayed + 1
      pointsFor := en.pointsFor + m.playerOnePoints
      pointsAgainst := en.pointsAgainst + m.playerTwoPoints
      wins := if winnerIsOne then en.wins + 1 else en.wins
      losses := if winnerIsOne then en.losses else en.losses + 1
      rating := round ((Ra : ℚ) + K * (Sa - e)) })
  updateEntry step1 m.playerTwoId (fun en =>
    { en with
      matchesPlayed := en.matchesPlayed + 1
      pointsFor := en.pointsFor + m.playerTwoPoints
      pointsAgainst := en.pointsAgainst + m.playerOnePoints
      wins := if winnerIsOne then en.wins else en.wins + 1
      losses := if winnerIsOne then en.losses + 1 else en.losses
      rating := round ((Rb : ℚ) + K * (Sb - (1 - e))) })

/-- `Array.from(statsMap.values()).map(entry => ({...}))`. -/
def toStanding (e : StatsEntry) : SeasonStanding :=
  { playerId := e.playerId, playerName := e.playerName, wins := e.wins,
    losses := e.losses, matchesPlayed := e.matchesPlayed, pointsFor := e.pointsFor,
    pointsAgainst := e.pointsAgainst,
    winRate := if e.matchesPlayed = 0 then 0 else (e.wins : ℚ) / (e.matchesPlayed : ℚ),
    rating := e.rating, pointDifferential := e.pointsFor - e.pointsAgainst }

/-- The standings comparator of the source, value for `(a, b)`:
rating descending, then point differential, then matches played. -/
def compareStandings (a b : SeasonStanding) : ℤ :=
  if b.rating = a.rating then
    if b.pointDifferential = a.pointDifferential then b.matchesPlayed - a.matchesPlayed
    else b.pointDifferential - a.pointDifferential
  else b.rating - a.rating

/-- `calculateSeasonStandings` of `server/index.ts`, parametrised by the
expected-score function `Ea` (see the module docstring). -/
def calculateSeasonStandings (Ea : ℤ → ℤ → ℚ) (ms : List MatchWithRelations) :
    List SeasonStanding :=
  let final := (sortByPlayedAt ms).foldl (processMatch Ea) (initStatsMap ms)
  List.insertionSort (fun a b => compareStandings a b ≤ 0) (final.map toStanding)

/-- `m.season ? m.season.id : 0` — the grouping key of `computeEloDeltas`. -/
def seasonKey (m : MatchWithRelations) : ℤ :=
  match m.seasonId with
  | some sid => sid
  | none => 0

/-- The distinct season keys of a match list, in order of first
appearance (iteration order of the `bySeason` map). -/
def groupKeys (ms : List MatchWithRelations) : List ℤ :=
  ms.foldl (fun ks m => if seasonKey m ∈ ks then ks else ks ++ [seasonKey m]) []

/-- The matches of one season group, in their original relative order
(pushing into per-key arrays preserves it). -/
def seasonGroup (ms : List MatchWithRelations) (sid : ℤ) : List MatchWithRelations :=
  ms.filter (fun m => seasonKey m == sid)

/-- The current rating held in the lazily initialised `ratingMap` of
`computeEloDeltas`; a missing key reads as `BASE_RATING` because the
source inserts `BASE_RATING` right before every read. -/
def assocRating (rs : List (ℤ × ℤ)) (pid : ℤ) : ℤ :=
  match rs.find? (fun r => r.1 == pid) with
  | some r => r.2
  | none => BASE_RATING

/-- `ratingMap.set(pid, v)`: overwrite if present, append otherwise. -/
def setRating (rs : List (ℤ × ℤ)) (pid v : ℤ) : List (ℤ × ℤ) :=
  if rs.any (fun r => r.1 == pid) then
    rs.map (fun r => if r.1 = pid then (pid, v) else r)
  else rs ++ [(pid, v)]

/-- The body of the per-season loop of `computeEloDeltas`: compute
`deltaA = Math.round(K * (Sa - Ea))`, `deltaB = Math.round(K * (Sb - Eb))`,
apply them to the rating map (`playerOne` first), and record
`(match.id, deltaA, deltaB)`. -/
def deltaStep (Ea : ℤ → ℤ → ℚ) (st : List (ℤ × ℤ) × List (ℤ × ℤ × ℤ))
    (m : MatchWithRelations) : List (ℤ × ℤ) × List (ℤ × ℤ × ℤ) :=
  let Ra := assocRating st.1 m.playerOneId
  let Rb := assocRating st.1 m.playerTwoId
  let e := Ea Ra Rb
  let winnerIsOne := m.winnerId = m.playerOneId
  let Sa : ℚ := if winnerIsOne then 1 else 0
  let Sb : ℚ := if winnerIsOne then 0 else 1
  let deltaA := round (K * (Sa - e))
  let deltaB := round (K * (Sb - (1 - e)))
  (setRating (setRating st.1 m.playerOneId (Ra + deltaA)) m.playerTwoId (Rb + deltaB),
    st.2 ++ [(m.id, deltaA, deltaB)])

/-- One season group of `computeEloDeltas`: chronological sort followed
by the delta-emitting Elo loop. -/
def deltasForSeason (Ea : ℤ → ℤ → ℚ) (g : List MatchWithRelations) :
    List (ℤ × ℤ × ℤ) :=
  ((sortByPlayedAt g).foldl (deltaStep Ea) ([], [])).2

/-- `computeEloDeltas` of `server/index.ts`: group by season key, run
the Elo loop per group.  The resulting `Map` keyed by match id is the
list of `(id, playerOneDelta, playerTwoDelta)` triples (ids of stored
matches are unique, so lookup order is immaterial). -/
def computeEloDeltas (Ea : ℤ → ℤ → ℚ) (ms : List MatchWithRelations) :
    List (ℤ × ℤ × ℤ) :=
  (groupKeys ms).flatMap (fun sid => deltasForSeason Ea (seasonGroup ms sid))

/-- `deltas.get(m.id)` with the `?? {playerOneDelta: 0, playerTwoDelta: 0}`
fallback used when serialising matches. -/
def matchDeltaFor (ds : List (ℤ × ℤ × ℤ)) (mid : ℤ) : ℤ × ℤ :=
  match ds.find? (fun d => d.1 == mid) with
  | some d => d.2
  | none => (0, 0)

/-- The Elo delta credited to player `p` by match `m` according to the
delta table `ds`: the `playerOneEloDelta` where `p` is `playerOne`, the
`playerTwoEloDelta` where `p` is `playerTwo`. -/
def deltaContrib (ds : List (ℤ × ℤ × ℤ)) (p : ℤ) (m : MatchWithRelations) : ℤ :=
  (if m.playerOneId = p then (matchDeltaFor ds m.id).1 else 0) +
  (if m.playerTwoId = p then (matchDeltaFor ds m.id).2 else 0)

/-- The sum, over the matches of `g`, of the Elo deltas credited to
player `p`. -/
def playerDeltaSum (ds : List (ℤ × ℤ × ℤ)) (g : List MatchWithRelations) (p : ℤ) : ℤ :=
  (g.map (deltaContrib ds p)).sum

/-- The rating reported for player `p` by a standings list. -/
def standingRating (st : List SeasonStanding) (p : ℤ) : Option ℤ :=
  (st.find? (fun s => s.playerId == p)).map (fun s => s.rating)

/-- Player `p` appears in (either side of) some match of `g`. -/
def appearsIn (g : List MatchWithRelations) (p : ℤ) : Prop :=
  ∃ m ∈ g, m.playerOneId = p ∨ m.playerTwoId = p

instance (g : List MatchWithRelations) (p : ℤ) : Decidable (appearsIn g p) := by
  unfold appearsIn; infer_instance

/-! ### Player statistics (`calculatePlayerEnhancements`, `buildPlayerStats`) -/

/-- A player row with the relations loaded by
`fetchPlayersWithRelations` (`matchesAsPlayerOne`, `matchesAsPlayerTwo`,
`matchesWon`). -/
structure PlayerWithRelations where
  id : ℤ
  name : String
  createdAt : ℤ
  updatedAt : ℤ
  matchesAsPlayerOne : List MatchWithRelations
  matchesAsPlayerTwo : List MatchWithRelations
  matchesWon : List MatchWithRelations
  deriving Repr, DecidableEq

/-- The `[startDate, endDate]` window (epoch milliseconds) of the
current season as passed to the statistics functions. -/
structure SeasonWindow where
  startDate : ℤ
  endDate : ℤ
  deriving Repr, DecidableEq

/-- The first streak loop of `calculatePlayerEnhancements`: fold state
`(streak, longestStreak)`; a win extends the running streak and bumps
the maximum, a loss resets the running streak. -/
def streakFold (pid : ℤ) (ms : List MatchWithRelations) : ℤ × ℤ :=
  ms.foldl
    (fun sl m => if m.winnerId = pid then (sl.1 + 1, max sl.2 (sl.1 + 1)) else (0, sl.2))
    (0, 0)

/-- The second streak loop (`for i = matches.length - 1; ...; break`),
expressed on the reversed match list: count wins until the first
non-win. -/
def countTrailingWins (pid : ℤ) : List MatchWithRelations → ℤ
  | [] => 0
  | m :: rest => if m.winnerId = pid then countTrailingWins pid rest + 1 else 0

/-- `matches.filter(m => m.playedAt >= currentSeason.startDate &&
m.playedAt <= currentSeason.endDate)`. -/
def seasonMatchesOf (ms : List MatchWithRelations) (w : SeasonWindow) :
    List MatchWithRelations :=
  ms.filter (fun m => decide (w.startDate ≤ m.playedAt) && decide (m.playedAt ≤ w.endDate))

/-- `championCounts.get(player.id) ?? 0`. -/
def championCountsGet (cc : List (ℤ × ℤ)) (pid : ℤ) : ℤ :=
  match cc.find? (fun c => c.1 == pid) with
  | some c => c.2
  | none => 0

/-- Result record of `calculatePlayerEnhancements`. -/
structure PlayerEnhancements where
  badges : List String
  currentStreak : ℤ
  longestStreak : ℤ
  championships : ℤ
  justReachedStreakFive : Bool
  deriving Repr, DecidableEq

/-- `calculatePlayerEnhancements` of `server/index.ts`.  The badge
labels are the source's Dutch strings (`"In vorm"` = "In form",
`"Perfecte maand"` = "Perfect month", `"Dominantie"` = "Dominance",
`"Marathonspeler"` = "Marathon player", `"Winmachine"` = "Win
machine").  `badges.push(...)` order is preserved by the appends. -/
def calculatePlayerEnhancements (player : PlayerWithRelations)
    (currentSeason : SeasonWindow) (championCounts : List (ℤ × ℤ)) :
    PlayerEnhancements :=
  let ms := sortByPlayedAt (player.matchesAsPlayerOne ++ player.matchesAsPlayerTwo)
  let sl := streakFold player.id ms
  let longestStreak := sl.2
  let currentStreak := countTrailingWins player.id ms.reverse
  let seasonMatches := seasonMatchesOf ms currentSeason
  let seasonWins : ℤ := ((seasonMatches.filter (fun m => m.winnerId == player.id)).length : ℤ)
  let seasonLosses : ℤ := (seasonMatches.length : ℤ) - seasonWins
  let badges : List String :=
    (if 3 ≤ currentStreak then ["In vorm"] else []) ++
    (if 3 ≤ seasonMatches.length ∧ seasonLosses = 0 then ["Perfecte maand"] else []) ++
    (if 5 ≤ seasonMatches.length ∧
        (3 / 4 : ℚ) ≤ (seasonWins : ℚ) /
          (if seasonMatches.length = 0 then 1 else (seasonMatches.length : ℚ))
      then ["Dominantie"] else []) ++
    (if 10 ≤ seasonMatches.length then ["Marathonspeler"] else []) ++
    (if 5 ≤ longestStreak then ["Winmachine"] else [])
  { badges := badges, currentStreak := currentStreak, longestStreak := longestStreak,
    championships := championCountsGet championCounts player.id,
    justReachedStreakFive := currentStreak == 5 }

/-- Result record of `buildPlayerStats` (the serialised player fields
are reduced to id and name; the claims do not touch them). -/
structure PlayerStats where
  playerId : ℤ
  playerName : String
  wins : ℤ
  losses : ℤ
  -- the source field is `matches`, a reserved word in Lean
  matchesPlayed : ℤ
  pointsFor : ℤ
  pointsAgainst : ℤ
  winRate : ℚ
  pointDifferential : ℤ
  badges : List String
  currentStreak : ℤ
  longestStreak : ℤ
  championships : ℤ
  justReachedStreakFive : Bool
  deriving Repr, DecidableEq

/-- `buildPlayerStats` of `server/index.ts`. -/
def buildPlayerStats (player : PlayerWithRelations) (currentSeason : SeasonWindow)
    (championCounts : List (ℤ × ℤ)) : PlayerStats :=
  let ms := player.matchesAsPlayerOne ++ player.matchesAsPlayerTwo
  let wins : ℤ := (player.matchesWon.length : ℤ)
  let losses : ℤ := (ms.length : ℤ) - wins
  let points : ℤ × ℤ := ms.foldl
    (fun acc m =>
      if m.playerOneId = player.id then
        (acc.1 + m.playerOnePoints, acc.2 + m.playerTwoPoints)
      else
        (acc.1 + m.playerTwoPoints, acc.2 + m.playerOnePoints))
    (0, 0)
  let winRate : ℚ := if ms.length = 0 then 0 else (wins : ℚ) / (ms.length : ℚ)
  let pointDifferential := points.1 - points.2
  let e := calculatePlayerEnhancements player currentSeason championCounts
  { playerId := player.id, playerName := player.name, wins := wins, losses := losses,
    matchesPlayed := (ms.length : ℤ), pointsFor := points.1, pointsAgainst := points.2,
    winRate := winRate, pointDifferential := pointDifferential, badges := e.badges,
    currentStreak := e.currentStreak, longestStreak := e.longestStreak,
    championships := e.championships, justReachedStreakFive := e.justReachedStreakFive }

/-! ### Match validation (`POST /api/matches`, `PATCH /api/matches/:id`) -/

/-- The numeric body of a match-creation request (after the typeof
checks of the route). -/
structure MatchInput where
  playerOneId : ℤ
  playerTwoId : ℤ
  playerOnePoints : ℤ
  playerTwoPoints : ℤ
  playedAt : ℤ
  deriving Repr, DecidableEq

/-- A partial body of a match-update request (`undefined` fields stay
at the existing value). -/
structure MatchPatch where
  playerOneId : Option ℤ
  playerTwoId : Option ℤ
  playerOnePoints : Option ℤ
  playerTwoPoints : Option ℤ
  playedAt : Option ℤ
  deriving Repr, DecidableEq

/-- The validation chain shared by the two match routes; `none` means
the input passes, `some msg` is the 400 response body message. -/
def validateMatch (playerOneId playerTwoId playerOnePoints playerTwoPoints : ℤ) :
    Option String :=
  if playerOneId = playerTwoId then
    some "Een speler kan niet tegen zichzelf spelen."
  else if playerOnePoints = playerTwoPoints then
    some "Een potje eindigt altijd met een winnaar."
  else if playerOnePoints < 0 ∨ playerTwoPoints < 0 then
    some "Scores kunnen niet negatief zijn."
  else none

/-- `POST /api/matches`: validation followed by the row write with
`winnerId = playerOnePoints > playerTwoPoints ? playerOneId : playerTwoId`.
The row id, resolved player names and the season assigned from
`playedAt` are supplied by the persistence collaborator. -/
def createMatch (input : MatchInput) (id : ℤ) (p1Name p2Name : String)
    (seasonId : Option ℤ) : Except String MatchWithRelations :=
  match validateMatch input.playerOneId input.playerTwoId
      input.playerOnePoints input.playerTwoPoints with
  | some msg => .error msg
  | none =>
    .ok { id := id, playerOneId := input.playerOneId, playerTwoId := input.playerTwoId,
          playerOneName := p1Name, playerTwoName := p2Name,
          playerOnePoints := input.playerOnePoints,
          playerTwoPoints := input.playerTwoPoints,
          winnerId := if input.playerOnePoints > input.playerTwoPoints
            then input.playerOneId else input.playerTwoId,
          playedAt := input.playedAt, seasonId := seasonId }

/-- `PATCH /api/matches/:id`: merge the patch over the existing row,
then the same validation and winner derivation as creation. -/
def updateMatch (existing : MatchWithRelations) (patch : MatchPatch)
    (p1Name p2Name : String) (seasonId : Option ℤ) :
    Except String MatchWithRelations :=
  let nextPlayerOneId := patch.playerOneId.getD existing.playerOneId
  let nextPlayerTwoId := patch.playerTwoId.getD existing.playerTwoId
  let nextPlayerOnePoints := patch.playerOnePoints.getD existing.playerOnePoints
  let nextPlayerTwoPoints := patch.playerTwoPoints.getD existing.playerTwoPoints
  match validateMatch nextPlayerOneId nextPlayerTwoId
      nextPlayerOnePoints nextPlayerTwoPoints with
  | some msg => .error msg
  | none =>
    .ok { id := existing.id, playerOneId := nextPlayerOneId,
          playerTwoId := nextPlayerTwoId,
          playerOneName := p1Name, playerTwoName := p2Name,
          playerOnePoints := nextPlayerOnePoints,
          playerTwoPoints := nextPlayerTwoPoints,
          winnerId := if nextPlayerOnePoints > nextPlayerTwoPoints
            then nextPlayerOneId else nextPlayerTwoId,
          playedAt := patch.playedAt.getD existing.playedAt, seasonId := seasonId }

/-! ### Champion assignment (`ensurePastSeasonChampions`) -/

/-- A season row as loaded by `ensurePastSeasonChampions` (`endDate`
in epoch milliseconds, matches with relations included). -/
structure SeasonRow where
  id : ℤ
  championId : Option ℤ
  endDateMillis : ℤ
  -- the source field is `matches`, a reserved word in Lean
  matchList : List MatchWithRelations
  deriving Repr, DecidableEq

/-- The decision taken for one season: `some c` when the source issues
`prisma.season.update({data: {championId: c}})`, `none` when it
returns without writing.  A season qualifies when its end date is
past (`endDate < now` of the `findMany` filter), its standings are
non-empty, and the stored `championId` differs from the computed
top-ranked player. -/
def championUpdateFor (Ea : ℤ → ℤ → ℚ) (now : ℤ) (s : SeasonRow) : Option ℤ :=
  if s.endDateMillis < now then
    match calculateSeasonStandings Ea s.matchList with
    | [] => none
    | top :: _ => if s.championId = some top.playerId then none else some top.playerId
  else none

/-- The season row after `ensurePastSeasonChampions` handled it. -/
def applyChampionUpdate (Ea : ℤ → ℤ → ℚ) (now : ℤ) (s : SeasonRow) : SeasonRow :=
  match championUpdateFor Ea now s with
  | some c => { s with championId := some c }
  | none => s

/-- `ensurePastSeasonChampions` of `server/index.ts`: the updated
season table together with the list of performed writes
`(season.id, championId)`. -/
def ensurePastSeasonChampions (Ea : ℤ → ℤ → ℚ) (now : ℤ)
    (seasons : List SeasonRow) : List SeasonRow × List (ℤ × ℤ) :=
  (seasons.map (applyChampionUpdate Ea now),
   seasons.filterMap (fun s => (championUpdateFor Ea now s).map (fun c => (s.id, c))))

/-! ### Season partitioner (`getSeasonBoundaries`, `getOrCreateSeasonForDate`)

Season boundaries are computed with the JavaScript `Date` calendar in
local time; a timestamp is modelled as a civil date-time record.  The
linear key below is an order-embedding of valid civil date-times into
`ℤ` (it plays the role of the epoch-milliseconds value: the source
only ever compares timestamps, never subtracts them). -/

/-- Gregorian leap-year rule (what `new Date(y, 1, 29)` implements). -/
def isLeapYear (y : ℤ) : Bool :=
  (y % 4 == 0 && y % 100 != 0) || y % 400 == 0

/-- Number of days of month `m` (0-based: 0 = January) of year `y`;
this is the day-of-month produced by `new Date(y, m + 1, 0)`,
including the December → January rollover. -/
def daysInMonth (y : ℤ) (m : ℕ) : ℕ :=
  if m = 1 then (if isLeapYear y then 29 else 28)
  else if m = 3 ∨ m = 5 ∨ m = 8 ∨ m = 10 then 30 else 31

/-- A civil date-time in local time (month 0-based as in JavaScript). -/
structure SDate where
  year : ℤ
  month : ℕ
  day : ℕ
  hour : ℕ
  minute : ℕ
  second : ℕ
  ms : ℕ
  deriving Repr, DecidableEq

/-- Field ranges of a real `Date` value. -/
def ValidDate (d : SDate) : Prop :=
  d.month ≤ 11 ∧ 1 ≤ d.day ∧ d.day ≤ daysInMonth d.year d.month ∧
    d.hour ≤ 23 ∧ d.minute ≤ 59 ∧ d.second ≤ 59 ∧ d.ms ≤ 999

instance (d : SDate) : Decidable (ValidDate d) := by
  unfold ValidDate; infer_instance

/-- Order-embedding of civil date-times into `ℤ` (lexicographic by
year, month, day, hour, minute, second, millisecond; the radices bound
every valid field). -/
def SDate.key (d : SDate) : ℤ :=
  ((((((d.year * 12 + (d.month : ℤ)) * 32 + (d.day : ℤ)) * 24 + (d.hour : ℤ)) * 60 +
    (d.minute : ℤ)) * 60 + (d.second : ℤ)) * 1000 + (d.ms : ℤ))

/-- `getSeasonBoundaries`: `start = new Date(y, m, 1, 0, 0, 0, 0)`,
`end = new Date(y, m + 1, 0, 23, 59, 59, 999)` (day `0` of the next
month is the last day of month `m`). -/
def getSeasonBoundaries (d : SDate) : SDate × SDate :=
  (⟨d.year, d.month, 1, 0, 0, 0, 0⟩,
   ⟨d.year, d.month, daysInMonth d.year d.month, 23, 59, 59, 999⟩)

/-- The capitalised `nl-NL` month names
(`date.toLocaleString("nl-NL", {month: "long"})` followed by
`.replace(/^\w/, c => c.toUpperCase())`). -/
def monthNamesNL : List String :=
  ["Januari", "Februari", "Maart", "April", "Mei", "Juni", "Juli",
   "Augustus", "September", "Oktober", "November", "December"]

/-- `buildSeasonName`: capitalised month name plus the year. -/
def buildSeasonName (d : SDate) : String :=
  (monthNamesNL.getD d.month "") ++ " " ++ toString d.year

/-- A persisted season row of the partitioner. -/
structure SeasonRec where
  id : ℕ
  name : String
  startDate : SDate
  endDate : SDate
  deriving Repr, DecidableEq

/-- The season table (rows in creation order, as scanned by
`findFirst`) plus the autoincrement counter. -/
structure SeasonState where
  seasons : List SeasonRec
  nextId : ℕ
  deriving Repr, DecidableEq

/-- The `findFirst({startDate: {lte: date}, endDate: {gte: date}})`
predicate. -/
def seasonContains (s : SeasonRec) (d : SDate) : Bool :=
  decide (s.startDate.key ≤ d.key) && decide (d.key ≤ s.endDate.key)

/-- `getOrCreateSeasonForDate` of `server/index.ts`: reuse the first
season row containing the date, otherwise create (and persist) a row
with the month boundaries of the date. -/
def getOrCreateSeasonForDate (d : SDate) (st : SeasonState) :
    SeasonRec × SeasonState :=
  match st.seasons.find? (fun s => seasonContains s d) with
  | some s => (s, st)
  | none =>
    let b := getSeasonBoundaries d
    let s : SeasonRec :=
      { id := st.nextId, name := "Seizoen " ++ buildSeasonName d,
        startDate := b.1, endDate := b.2 }
    (s, { seasons := st.seasons ++ [s], nextId := st.nextId + 1 })

/-- The row `getOrCreateSeasonForDate` creates when no existing season
contains the date (named here for reuse in statements; it is the
`season.create` payload of the source). -/
def newSeason (d : SDate) (n : ℕ) : SeasonRec :=
  { id := n, name := "Seizoen " ++ buildSeasonName d,
    startDate := (getSeasonBoundaries d).1, endDate := (getSeasonBoundaries d).2 }

/-- A season row spanning exactly one calendar month. -/
def MonthSeason (s : SeasonRec) : Prop :=
  ∃ y : ℤ, ∃ m : ℕ, m ≤ 11 ∧
    s.startDate = ⟨y, m, 1, 0, 0, 0, 0⟩ ∧
    s.endDate = ⟨y, m, daysInMonth y m, 23, 59, 59, 999⟩

/-- Well-formed season table: every persisted row spans exactly one
calendar month (true of the empty table and preserved by
`getOrCreateSeasonForDate`). -/
def SeasonsWF (st : SeasonState) : Prop :=
  ∀ s ∈ st.seasons, MonthSeason s

/-! ### Specification-side definitions

These definitions render the specification's language (they are *not*
translated from the source); the refinement theorems below compare the
source translation against them. -/

/-- Win/loss outcome sequence of a player over a match list (`true` =
win). -/
def outcomesOf (pid : ℤ) (ms : List MatchWithRelations) : List Bool :=
  ms.map (fun m => m.winnerId == pid)

/-- Specification: "the run-length of consecutive wins ending at the
most recent match (0 if the most recent match was a loss or there is
no history)" — the number of trailing `true`s. -/
def trailingWinRun (l : List Bool) : ℕ :=
  (l.reverse.takeWhile id).length

/-- Specification: "the maximum run-length of consecutive wins anywhere
in the history" — every win run ends at some position, i.e. is the
trailing run of some prefix, so take the maximum over all prefixes. -/
def maxWinRun (l : List Bool) : ℕ :=
  (l.inits.map trailingWinRun).foldr max 0

/-- The spec's ordering of season standings: rating descending, ties by
point differential descending, then by matches played descending (equal
triples are tied). -/
def standingsOrdered (a b : SeasonStanding) : Prop :=
  b.rating < a.rating ∨
    (b.rating = a.rating ∧
      (b.pointDifferential < a.pointDifferential ∨
        (b.pointDifferential = a.pointDifferential ∧ b.matchesPlayed ≤ a.matchesPlayed)))

/-! ### Concrete inputs used by witnesses and counterexamples -/

/-- The constant expected-score function `1/2` — the value the source
expression `1 / (1 + 10 ** ((Rb - Ra) / 400))` takes whenever the two
ratings are equal. -/
def halfEa : ℤ → ℤ → ℚ := fun _ _ => 1 / 2

/-- A single stored match: player 1 beats player 2 by 11 : 5. -/
def demoMatch : MatchWithRelations :=
  { id := 1, playerOneId := 1, playerTwoId := 2, playerOneName := "A",
    playerTwoName := "B", playerOnePoints := 11, playerTwoPoints := 5,
    winnerId := 1, playedAt := 100, seasonId := some 7 }

/-- A second stored match of the same season: player 2 beats player 1. -/
def demoMatch2 : MatchWithRelations :=
  { id := 2, playerOneId := 2, playerTwoId := 1, playerOneName := "B",
    playerTwoName := "A", playerOnePoints := 11, playerTwoPoints := 7,
    winnerId := 2, playedAt := 200, seasonId := some 7 }

/-- A match of player 3 against player 4 used by streak/badge witnesses. -/
def demoMatchAt (mid : ℤ) (t : ℤ) (winner : ℤ) : MatchWithRelations :=
  { id := mid, playerOneId := 3, playerTwoId := 4, playerOneName := "C",
    playerTwoName := "D", playerOnePoints := if winner = 3 then 11 else 5,
    playerTwoPoints := if winner = 3 then 5 else 11,
    winnerId := winner, playedAt := t, seasonId := some 7 }

/-- A player whose chronological outcomes are `[W, W, L, W, W, W]`
(the spec's streak example). -/
def streakDemoPlayer : PlayerWithRelations :=
  { id := 3, name := "C", createdAt := 0, updatedAt := 0,
    matchesAsPlayerOne :=
      [demoMatchAt 1 10 3, demoMatchAt 2 20 3, demoMatchAt 3 30 4,
       demoMatchAt 4 40 3, demoMatchAt 5 50 3, demoMatchAt 6 60 3],
    matchesAsPlayerTwo := [],
    matchesWon :=
      [demoMatchAt 1 10 3, demoMatchAt 2 20 3, demoMatchAt 4 40 3,
       demoMatchAt 5 50 3, demoMatchAt 6 60 3] }

/-- A season window containing every demo timestamp. -/
def demoWindow : SeasonWindow := { startDate := 0, endDate := 1000 }

/-- A player with exactly 3 season matches, all wins. -/
def perfectDemoPlayer : PlayerWithRelations :=
  { id := 3, name := "C", createdAt := 0, updatedAt := 0,
    matchesAsPlayerOne := [demoMatchAt 1 10 3, demoMatchAt 2 20 3, demoMatchAt 3 30 3],
    matchesAsPlayerTwo := [],
    matchesWon := [demoMatchAt 1 10 3, demoMatchAt 2 20 3, demoMatchAt 3 30 3] }

/-- A player with 4 season matches and exactly 1 loss (75% win rate). -/
def almostDemoPlayer : PlayerWithRelations :=
  { id := 3, name := "C", createdAt := 0, updatedAt := 0,
    matchesAsPlayerOne :=
      [demoMatchAt 1 10 3, demoMatchAt 2 20 3, demoMatchAt 3 30 3, demoMatchAt 4 40 4],
    matchesAsPlayerTwo := [],
    matchesWon := [demoMatchAt 1 10 3, demoMatchAt 2 20 3, demoMatchAt 3 30 3] }

/-- A past season (`endDate < now = 300`) that already has a recorded
champion (player 99) different from the top-ranked player of its
standings (player 1). -/
def staleChampionSeason : SeasonRow :=
  { id := 5, championId := some 99, endDateMillis := 200, matchList := [demoMatch] }

/-- A past season with no recorded champion. -/
def freshChampionSeason : SeasonRow :=
  { id := 5, championId := none, endDateMillis := 200, matchList := [demoMatch] }

/-- The standings entry the demo winner receives. -/
def demoWinnerStanding : SeasonStanding :=
  { playerId := 1, playerName := "A", wins := 1, losses := 0, matchesPlayed := 1,
    pointsFor := 11, pointsAgainst := 5, winRate := 1, rating := 1016,
    pointDifferential := 6 }

/-- The standings entry the demo loser receives. -/
def demoLoserStanding : SeasonStanding :=
  { playerId := 2, playerName := "B", wins := 0, losses := 1, matchesPlayed := 1,
    pointsFor := 5, pointsAgainst := 11, winRate := 0, rating := 984,
    pointDifferential := -6 }

/-- A valid creation request: player 1 beats player 2 by 11 : 5. -/
def demoInput : MatchInput :=
  { playerOneId := 1, playerTwoId := 2, playerOnePoints := 11,
    playerTwoPoints := 5, playedAt := 100 }

/-- The season-scoped matches of a player (the `seasonMatches` value of
`calculatePlayerEnhancements`). -/
def playerSeasonMatches (player : PlayerWithRelations) (w : SeasonWindow) :
    List MatchWithRelations :=
  seasonMatchesOf (sortByPlayedAt (player.matchesAsPlayerOne ++ player.matchesAsPlayerTwo)) w

/-- The `seasonWins` value of `calculatePlayerEnhancements`. -/
def playerSeasonWins (player : PlayerWithRelations) (w : SeasonWindow) : ℤ :=
  (((playerSeasonMatches player w).filter (fun m => m.winnerId == player.id)).length : ℤ)

/-- The `seasonLosses` value of `calculatePlayerEnhancements`. -/
def playerSeasonLosses (player : PlayerWithRelations) (w : SeasonWindow) : ℤ :=
  ((playerSeasonMatches player w).length : ℤ) - playerSeasonWins player w

/-- The step of the first streak loop, on outcome booleans. -/
def streakStep (sl : ℤ × ℤ) (b : Bool) : ℤ × ℤ :=
  if b then (sl.1 + 1, max sl.2 (sl.1 + 1)) else (0, sl.2)

/-- The player-id keys of the stats map, in entry order. -/
def entryKeys (E : List StatsEntry) : List ℤ :=
  E.map (fun e => e.playerId)

/-- Total wins over a standings list. -/
def totalWins (l : List SeasonStanding) : ℤ :=
  (l.map (fun s => s.wins)).sum

/-- Total losses over a standings list. -/
def totalLosses (l : List SeasonStanding) : ℤ :=
  (l.map (fun s => s.losses)).sum

/-- Total point differential over a standings list. -/
def totalPointDiff (l : List SeasonStanding) : ℤ :=
  (l.map (fun s => s.pointDifferential)).sum

/-! ## Streak lemmas (claim C5) -/

theorem trailingWinRun_concat (l : List Bool) (b : Bool) :
    trailingWinRun (l ++ [b]) = if b then trailingWinRun l + 1 else 0 := by
  unfold trailingWinRun
  rw [List.reverse_append]
  cases b <;> simp [List.takeWhile_cons]

theorem foldr_max_shift (c : ℕ) (L : List ℕ) : L.foldr max c = max (L.foldr max 0) c := by
  induction L with
  | nil => simp
  | cons x t ih => simp [List.foldr_cons, ih, max_assoc]

theorem maxWinRun_nil : maxWinRun [] = 0 := rfl

theorem maxWinRun_concat (l : List Bool) (b : Bool) :
    maxWinRun (l ++ [b]) = max (maxWinRun l) (trailingWinRun (l ++ [b])) := by
  unfold maxWinRun
  rw [List.inits_append]
  simp only [List.inits, List.tail, List.map_cons, List.map_nil, List.map_append,
    List.foldr_append, List.foldr_cons, List.foldr_nil]
  rw [foldr_max_shift]
  simp [max_comm]

theorem streakStep_fold_spec (l : List Bool) :
    l.foldl streakStep (0, 0) = ((trailingWinRun l : ℤ), (maxWinRun l : ℤ)) := by
  induction l using List.reverseRecOn with
  | nil => simp [trailingWinRun, maxWinRun]
  | append_singleton l b ih =>
    rw [List.foldl_append, ih, List.foldl_cons, List.foldl_nil,
      maxWinRun_concat, trailingWinRun_concat]
    cases b <;> simp [streakStep, Nat.cast_max]

theorem streakFold_eq (pid : ℤ) (ms : List MatchWithRelations) :
    streakFold pid ms = (outcomesOf pid ms).foldl streakStep (0, 0) := by
  unfold streakFold outcomesOf
  rw [List.foldl_map]
  apply List.foldl_ext
  intro a m _
  by_cases h : m.winnerId = pid <;> simp [streakStep, h]

theorem countTrailingWins_takeWhile (pid : ℤ) (l : List MatchWithRelations) :
    countTrailingWins pid l =
      (((l.map (fun m => m.winnerId == pid)).takeWhile id).length : ℤ) := by
  induction l with
  | nil => rfl
  | cons m rest ih =>
    by_cases h : m.winnerId = pid <;>
      simp [countTrailingWins, h, List.takeWhile_cons, ih]

theorem countTrailingWins_eq (pid : ℤ) (ms : List MatchWithRelations) :
    countTrailingWins pid ms.reverse = (trailingWinRun (outcomesOf pid ms) : ℤ) := by
  rw [countTrailingWins_takeWhile]
  unfold trailingWinRun outcomesOf
  rw [List.map_reverse]

/-- C5.  Processing a player's match history in chronological `playedAt`
order, `longestStreak` is the maximum run-length of consecutive wins
anywhere in the history and `currentStreak` is the run-length of
consecutive wins ending at the most recent match (`0` on a trailing
loss or an empty history: `trailingWinRun` is then `0`); on the outcome
sequence `[W, W, L, W, W, W]` both equal `3`. -/
theorem C5_streaks (player : PlayerWithRelations) (w : SeasonWindow)
    (cc : List (ℤ × ℤ)) :
    ((calculatePlayerEnhancements player w cc).longestStreak =
      (maxWinRun (outcomesOf player.id
        (sortByPlayedAt (player.matchesAsPlayerOne ++ player.matchesAsPlayerTwo))) : ℤ) ∧
    (calculatePlayerEnhancements player w cc).currentStreak =
      (trailingWinRun (outcomesOf player.id
        (sortByPlayedAt (player.matchesAsPlayerOne ++ player.matchesAsPlayerTwo))) : ℤ)) ∧
    ((outcomesOf streakDemoPlayer.id
        (sortByPlayedAt (streakDemoPlayer.matchesAsPlayerOne ++
          streakDemoPlayer.matchesAsPlayerTwo)) =
      [true, true, false, true, true, true]) ∧
    (calculatePlayerEnhancements streakDemoPlayer demoWindow []).longestStreak = 3 ∧
    (calculatePlayerEnhancements streakDemoPlayer demoWindow []).currentStreak = 3) := by
  constructor
  · constructor
    · simp only [calculatePlayerEnhancements, streakFold_eq, streakStep_fold_spec]
    · simp only [calculatePlayerEnhancements, countTrailingWins_eq]
  · refine ⟨by decide, ?_, ?_⟩ <;>
      simp only [calculatePlayerEnhancements, streakFold_eq, streakStep_fold_spec,
        countTrailingWins_eq] <;> decide

/-! ## Badge lemmas (claim C6) -/

theorem badges_concat_mem (c1 c2 c3 c4 c5 : Prop) [Decidable c1] [Decidable c2]
    [Decidable c3] [Decidable c4] [Decidable c5] :
    let bs := (if c1 then ["In vorm"] else []) ++
      (if c2 then ["Perfecte maand"] else []) ++
      (if c3 then ["Dominantie"] else []) ++
      (if c4 then ["Marathonspeler"] else []) ++
      (if c5 then ["Winmachine"] else [])
    ("In vorm" ∈ bs ↔ c1) ∧ ("Perfecte maand" ∈ bs ↔ c2) ∧
      ("Dominantie" ∈ bs ↔ c3) ∧ ("Marathonspeler" ∈ bs ↔ c4) ∧
      ("Winmachine" ∈ bs ↔ c5) ∧ "In form" ∉ bs ∧ "Perfect month" ∉ bs ∧
      "Dominance" ∉ bs ∧ "Marathon player" ∉ bs ∧ "Win machine" ∉ bs := by
  by_cases h1 : c1 <;> by_cases h2 : c2 <;> by_cases h3 : c3 <;>
    by_cases h4 : c4 <;> by_cases h5 : c5 <;>
    simp [h1, h2, h3, h4, h5]

theorem badges_of_enhancements (player : PlayerWithRelations) (w : SeasonWindow)
    (cc : List (ℤ × ℤ)) :
    (calculatePlayerEnhancements player w cc).badges =
      (if 3 ≤ (calculatePlayerEnhancements player w cc).currentStreak
        then ["In vorm"] else []) ++
      (if 3 ≤ (playerSeasonMatches player w).length ∧ playerSeasonLosses player w = 0
        then ["Perfecte maand"] else []) ++
      (if 5 ≤ (playerSeasonMatches player w).length ∧
          (3 / 4 : ℚ) ≤ (playerSeasonWins player w : ℚ) /
            (if (playerSeasonMatches player w).length = 0 then 1
              else ((playerSeasonMatches player w).length : ℚ))
        then ["Dominantie"] else []) ++
      (if 10 ≤ (playerSeasonMatches player w).length then ["Marathonspeler"] else []) ++
      (if 5 ≤ (calculatePlayerEnhancements player w cc).longestStreak
        then ["Winmachine"] else []) := by
  simp only [calculatePlayerEnhancements, playerSeasonMatches, playerSeasonWins,
    playerSeasonLosses]

/-- C6, amended: the badge labels the source stores are the Dutch
strings `"In vorm"` ("In form"), `"Perfecte maand"` ("Perfect month"),
`"Dominantie"` ("Dominance"), `"Marathonspeler"` ("Marathon player"),
`"Winmachine"` ("Win machine").  With those labels, the badge set of a
player contains exactly: "In vorm" iff `currentStreak ≥ 3`,
"Perfecte maand" iff the current-season match count is ≥ 3 with zero
season losses, "Dominantie" iff the count is ≥ 5 with season win rate
≥ 0.75, "Marathonspeler" iff the count is ≥ 10, and "Winmachine" iff
the career-wide `longestStreak` is ≥ 5; a player with exactly 3 season
matches, all wins, receives both "In vorm" and "Perfecte maand", and a
player with 4 season matches and 1 loss receives neither "Dominantie"
nor "Perfecte maand". -/
theorem C6_badges_amended (player : PlayerWithRelations) (w : SeasonWindow)
    (cc : List (ℤ × ℤ)) :
    (("In vorm" ∈ (calculatePlayerEnhancements player w cc).badges ↔
        3 ≤ (calculatePlayerEnhancements player w cc).currentStreak) ∧
      ("Perfecte maand" ∈ (calculatePlayerEnhancements player w cc).badges ↔
        3 ≤ (playerSeasonMatches player w).length ∧ playerSeasonLosses player w = 0) ∧
      ("Dominantie" ∈ (calculatePlayerEnhancements player w cc).badges ↔
        5 ≤ (playerSeasonMatches player w).length ∧
          (3 / 4 : ℚ) ≤ (playerSeasonWins player w : ℚ) /
            ((playerSeasonMatches player w).length : ℚ)) ∧
      ("Marathonspeler" ∈ (calculatePlayerEnhancements player w cc).badges ↔
        10 ≤ (playerSeasonMatches player w).length) ∧
      ("Winmachine" ∈ (calculatePlayerEnhancements player w cc).badges ↔
        5 ≤ (calculatePlayerEnhancements player w cc).longestStreak)) ∧
    ("In vorm" ∈ (calculatePlayerEnhancements perfectDemoPlayer demoWindow []).badges ∧
      "Perfecte maand" ∈
        (calculatePlayerEnhancements perfectDemoPlayer demoWindow []).badges) ∧
    ("Dominantie" ∉ (calculatePlayerEnhancements almostDemoPlayer demoWindow []).badges ∧
      "Perfecte maand" ∉
        (calculatePlayerEnhancements almostDemoPlayer demoWindow []).badges) := by
  have base := fun (player : PlayerWithRelations) (w : SeasonWindow)
      (cc : List (ℤ × ℤ)) =>
    badges_of_enhancements player w cc ▸
      badges_concat_mem
        (3 ≤ (calculatePlayerEnhancements player w cc).currentStreak)
        (3 ≤ (playerSeasonMatches player w).length ∧ playerSeasonLosses player w = 0)
        (5 ≤ (playerSeasonMatches player w).length ∧
          (3 / 4 : ℚ) ≤ (playerSeasonWins player w : ℚ) /
            (if (playerSeasonMatches player w).length = 0 then 1
              else ((playerSeasonMatches player w).length : ℚ)))
        (10 ≤ (playerSeasonMatches player w).length)
        (5 ≤ (calculatePlayerEnhancements player w cc).longestStreak)
  refine ⟨⟨(base player w cc).1, (base player w cc).2.1, ?_, (base player w cc).2.2.2.1,
      (base player w cc).2.2.2.2.1⟩, ⟨?_, ?_⟩, ⟨?_, ?_⟩⟩
  · rw [(base player w cc).2.2.1]
    constructor
    · rintro ⟨h5, hr⟩
      refine ⟨h5, ?_⟩
      rwa [if_neg (by omega)] at hr
    · rintro ⟨h5, hr⟩
      refine ⟨h5, ?_⟩
      rwa [if_neg (by omega)]
  · exact (base perfectDemoPlayer demoWindow []).1.mpr (by decide)
  · exact (base perfectDemoPlayer demoWindow []).2.1.mpr (by decide)
  · rw [(base almostDemoPlayer demoWindow []).2.2.1]
    rintro ⟨h5, -⟩
    exact absurd h5 (by decide)
  · rw [(base almostDemoPlayer demoWindow []).2.1]
    rintro ⟨-, h0⟩
    exact absurd h0 (by decide)

/-- C6, counterexample to the claim as stated: the source stores the
Dutch label `"In vorm"`, not `"In form"`; the player with three
straight wins has `currentStreak ≥ 3` yet the literal string
`"In form"` is not in the computed badge set (and `"In vorm"` is). -/
theorem C6_counterexample :
    3 ≤ (calculatePlayerEnhancements perfectDemoPlayer demoWindow []).currentStreak ∧
    "In form" ∉ (calculatePlayerEnhancements perfectDemoPlayer demoWindow []).badges ∧
    "In vorm" ∈ (calculatePlayerEnhancements perfectDemoPlayer demoWindow []).badges := by
  have base := badges_of_enhancements perfectDemoPlayer demoWindow [] ▸
    badges_concat_mem
      (3 ≤ (calculatePlayerEnhancements perfectDemoPlayer demoWindow []).currentStreak)
      (3 ≤ (playerSeasonMatches perfectDemoPlayer demoWindow).length ∧
        playerSeasonLosses perfectDemoPlayer demoWindow = 0)
      (5 ≤ (playerSeasonMatches perfectDemoPlayer demoWindow).length ∧
        (3 / 4 : ℚ) ≤ (playerSeasonWins perfectDemoPlayer demoWindow : ℚ) /
          (if (playerSeasonMatches perfectDemoPlayer demoWindow).length = 0 then 1
            else ((playerSeasonMatches perfectDemoPlayer demoWindow).length : ℚ)))
      (10 ≤ (playerSeasonMatches perfectDemoPlayer demoWindow).length)
      (5 ≤ (calculatePlayerEnhancements perfectDemoPlayer demoWindow []).longestStreak)
  exact ⟨by decide, base.2.2.2.2.2.1, base.1.mpr (by decide)⟩

/-! ## Empty input (claim C9) -/

/-- C9.  A player with zero matches gets well-defined zero statistics —
`winRate = 0` (not a division error), `pointDifferential = 0`, and all
tallies and streaks zero — and the standings of an empty match list are
the empty list. -/
theorem C9_empty_input (Ea : ℤ → ℤ → ℚ) (pid : ℤ) (pname : String) (ca ua : ℤ)
    (w : SeasonWindow) (cc : List (ℤ × ℤ)) :
    (buildPlayerStats ⟨pid, pname, ca, ua, [], [], []⟩ w cc).winRate = 0 ∧
    (buildPlayerStats ⟨pid, pname, ca, ua, [], [], []⟩ w cc).pointDifferential = 0 ∧
    (buildPlayerStats ⟨pid, pname, ca, ua, [], [], []⟩ w cc).wins = 0 ∧
    (buildPlayerStats ⟨pid, pname, ca, ua, [], [], []⟩ w cc).losses = 0 ∧
    (buildPlayerStats ⟨pid, pname, ca, ua, [], [], []⟩ w cc).matchesPlayed = 0 ∧
    (buildPlayerStats ⟨pid, pname, ca, ua, [], [], []⟩ w cc).pointsFor = 0 ∧
    (buildPlayerStats ⟨pid, pname, ca, ua, [], [], []⟩ w cc).pointsAgainst = 0 ∧
    (buildPlayerStats ⟨pid, pname, ca, ua, [], [], []⟩ w cc).currentStreak = 0 ∧
    (buildPlayerStats ⟨pid, pname, ca, ua, [], [], []⟩ w cc).longestStreak = 0 ∧
    calculateSeasonStandings Ea [] = [] := by
  simp [buildPlayerStats, calculatePlayerEnhancements, streakFold, countTrailingWins,
    seasonMatchesOf, sortByPlayedAt, List.insertionSort, calculateSeasonStandings,
    initStatsMap]

/-! ## Match validation (claim C8) -/

theorem createMatch_ok_iff (input : MatchInput) (id : ℤ) (p1n p2n : String)
    (sid : Option ℤ) (m : MatchWithRelations) :
    createMatch input id p1n p2n sid = .ok m ↔
      input.playerOneId ≠ input.playerTwoId ∧
      input.playerOnePoints ≠ input.playerTwoPoints ∧
      ¬(input.playerOnePoints < 0 ∨ input.playerTwoPoints < 0) ∧
      m = { id := id, playerOneId := input.playerOneId,
            playerTwoId := input.playerTwoId, playerOneName := p1n,
            playerTwoName := p2n, playerOnePoints := input.playerOnePoints,
            playerTwoPoints := input.playerTwoPoints,
            winnerId := if input.playerOnePoints > input.playerTwoPoints
              then input.playerOneId else input.playerTwoId,
            playedAt := input.playedAt, seasonId := sid } := by
  unfold createMatch validateMatch
  by_cases h1 : input.playerOneId = input.playerTwoId
  · simp [h1]
  · by_cases h2 : input.playerOnePoints = input.playerTwoPoints
    · simp [h1, h2]
    · by_cases h3 : input.playerOnePoints < 0 ∨ input.playerTwoPoints < 0
      · simp [h1, h2, h3]
      · simp [h1, h2, h3, eq_comm]

theorem updateMatch_ok_iff (existing : MatchWithRelations) (patch : MatchPatch)
    (p1n p2n : String) (sid : Option ℤ) (m : MatchWithRelations) :
    updateMatch existing patch p1n p2n sid = .ok m ↔
      patch.playerOneId.getD existing.playerOneId ≠
        patch.playerTwoId.getD existing.playerTwoId ∧
      patch.playerOnePoints.getD existing.playerOnePoints ≠
        patch.playerTwoPoints.getD existing.playerTwoPoints ∧
      ¬(patch.playerOnePoints.getD existing.playerOnePoints < 0 ∨
        patch.playerTwoPoints.getD existing.playerTwoPoints < 0) ∧
      m = { id := existing.id,
            playerOneId := patch.playerOneId.getD existing.playerOneId,
            playerTwoId := patch.playerTwoId.getD existing.playerTwoId,
            playerOneName := p1n, playerTwoName := p2n,
            playerOnePoints := patch.playerOnePoints.getD existing.playerOnePoints,
            playerTwoPoints := patch.playerTwoPoints.getD existing.playerTwoPoints,
            winnerId := if patch.playerOnePoints.getD existing.playerOnePoints >
                patch.playerTwoPoints.getD existing.playerTwoPoints
              then patch.playerOneId.getD existing.playerOneId
              else patch.playerTwoId.getD existing.playerTwoId,
            playedAt := patch.playedAt.getD existing.playedAt, seasonId := sid } := by
  unfold updateMatch validateMatch
  by_cases h1 : patch.playerOneId.getD existing.playerOneId =
      patch.playerTwoId.getD existing.playerTwoId
  · simp [h1]
  · by_cases h2 : patch.playerOnePoints.getD existing.playerOnePoints =
        patch.playerTwoPoints.getD existing.playerTwoPoints
    · simp [h1, h2]
    · by_cases h3 : patch.playerOnePoints.getD existing.playerOnePoints < 0 ∨
          patch.playerTwoPoints.getD existing.playerTwoPoints < 0
      · simp [h1, h2, h3]
      · simp [h1, h2, h3, eq_comm]

/-- C8.  Match creation and update reject self-play, tied scores and
negative scores (the request produces a 400 validation failure and no
row), and every accepted row's `winnerId` is the player reference with
the strictly higher score. -/
theorem C8_match_validation (input : MatchInput) (existing : MatchWithRelations)
    (patch : MatchPatch) (id : ℤ) (p1n p2n : String) (sid : Option ℤ) :
    (input.playerOneId = input.playerTwoId →
      ∀ m, createMatch input id p1n p2n sid ≠ .ok m) ∧
    (input.playerOnePoints = input.playerTwoPoints →
      ∀ m, createMatch input id p1n p2n sid ≠ .ok m) ∧
    (input.playerOnePoints < 0 ∨ input.playerTwoPoints < 0 →
      ∀ m, createMatch input id p1n p2n sid ≠ .ok m) ∧
    (∀ m, createMatch input id p1n p2n sid = .ok m →
      m.playerOneId ≠ m.playerTwoId ∧ m.playerOnePoints ≠ m.playerTwoPoints ∧
      0 ≤ m.playerOnePoints ∧ 0 ≤ m.playerTwoPoints ∧
      (m.playerTwoPoints < m.playerOnePoints → m.winnerId = m.playerOneId) ∧
      (m.playerOnePoints < m.playerTwoPoints → m.winnerId = m.playerTwoId)) ∧
    (patch.playerOneId.getD existing.playerOneId =
        patch.playerTwoId.getD existing.playerTwoId →
      ∀ m, updateMatch existing patch p1n p2n sid ≠ .ok m) ∧
    (patch.playerOnePoints.getD existing.playerOnePoints =
        patch.playerTwoPoints.getD existing.playerTwoPoints →
      ∀ m, updateMatch existing patch p1n p2n sid ≠ .ok m) ∧
    (patch.playerOnePoints.getD existing.playerOnePoints < 0 ∨
        patch.playerTwoPoints.getD existing.playerTwoPoints < 0 →
      ∀ m, updateMatch existing patch p1n p2n sid ≠ .ok m) ∧
    (∀ m, updateMatch existing patch p1n p2n sid = .ok m →
      m.playerOneId ≠ m.playerTwoId ∧ m.playerOnePoints ≠ m.playerTwoPoints ∧
      0 ≤ m.playerOnePoints ∧ 0 ≤ m.playerTwoPoints ∧
      (m.playerTwoPoints < m.playerOnePoints → m.winnerId = m.playerOneId) ∧
      (m.playerOnePoints < m.playerTwoPoints → m.winnerId = m.playerTwoId)) := by
  refine ⟨?_, ?_, ?_, ?_, ?_, ?_, ?_, ?_⟩
  · intro h m hm
    rw [createMatch_ok_iff] at hm
    exact hm.1 h
  · intro h m hm
    rw [createMatch_ok_iff] at hm
    exact hm.2.1 h
  · intro h m hm
    rw [createMatch_ok_iff] at hm
    exact hm.2.2.1 h
  · intro m hm
    rw [createMatch_ok_iff] at hm
    obtain ⟨h1, h2, h3, rfl⟩ := hm
    refine ⟨by simpa using h1, by simpa using h2, by simp; omega, by simp; omega, ?_, ?_⟩ <;>
      · intro hlt
        simp only [gt_iff_lt] at hlt ⊢
        split_ifs <;> first | rfl | omega
  · intro h m hm
    rw [updateMatch_ok_iff] at hm
    exact hm.1 h
  · intro h m hm
    rw [updateMatch_ok_iff] at hm
    exact hm.2.1 h
  · intro h m hm
    rw [updateMatch_ok_iff] at hm
    exact hm.2.2.1 h
  · intro m hm
    rw [updateMatch_ok_iff] at hm
    obtain ⟨h1, h2, h3, rfl⟩ := hm
    refine ⟨by simpa using h1, by simpa using h2, by simp; omega, by simp; omega, ?_, ?_⟩ <;>
      · intro hlt
        simp only [gt_iff_lt] at hlt ⊢
        split_ifs <;> first | rfl | omega

/-- Witness for C8: a concrete valid creation request is accepted and
the winner is the higher-scoring side. -/
theorem C8_match_validation_witness :
    ∃ m, createMatch demoInput 7 "A" "B" none = Except.ok m ∧
      m.winnerId = m.playerOneId := by
  have h :=
    (C8_match_validation demoInput demoMatch
      ⟨none, none, none, none, none⟩ 7 "A" "B" none).2.2.2.1
  refine ⟨_, rfl, ?_⟩
  exact (h _ rfl).2.2.2.2.1 (by decide)

/-! ## Standings ordering (claim C3) -/

theorem standingsLE_iff (a b : SeasonStanding) :
    compareStandings a b ≤ 0 ↔ standingsOrdered a b := by
  unfold compareStandings standingsOrdered
  split_ifs <;> omega

instance : IsTotal SeasonStanding (fun a b => compareStandings a b ≤ 0) := by
  constructor
  intro a b
  show compareStandings a b ≤ 0 ∨ compareStandings b a ≤ 0
  rw [standingsLE_iff, standingsLE_iff]
  unfold standingsOrdered
  omega

instance : IsTrans SeasonStanding (fun a b => compareStandings a b ≤ 0) := by
  constructor
  intro a b c hab hbc
  have hab' : compareStandings a b ≤ 0 := hab
  have hbc' : compareStandings b c ≤ 0 := hbc
  show compareStandings a c ≤ 0
  rw [standingsLE_iff] at hab' hbc' ⊢
  unfold standingsOrdered at hab' hbc' ⊢
  omega

/-- C3.  The standings list of `calculateSeasonStandings` is sorted by
rating descending, then point differential descending, then matches
played descending; the ordering relation is total (so equal key triples
are still comparable) and the computation is a pure function, hence
repeated invocation on identical input returns the identical list. -/
theorem C3_standings_sorted (Ea : ℤ → ℤ → ℚ) (ms : List MatchWithRelations) :
    List.Sorted standingsOrdered (calculateSeasonStandings Ea ms) ∧
    (∀ a b : SeasonStanding, standingsOrdered a b ∨ standingsOrdered b a) ∧
    calculateSeasonStandings Ea ms = calculateSeasonStandings Ea ms := by
  refine ⟨?_, ?_, rfl⟩
  · simp only [calculateSeasonStandings]
    exact (List.sorted_insertionSort _ _).imp fun h => (standingsLE_iff _ _).mp h
  · intro a b
    unfold standingsOrdered
    omega

/-! ## Elo update lemmas (claim C1) -/

theorem ensurePlayerEntry_rating (es : List StatsEntry) (pid : ℤ) (pname : String)
    (h : ∀ e ∈ es, e.rating = BASE_RATING) :
    ∀ e ∈ ensurePlayerEntry es pid pname, e.rating = BASE_RATING := by
  intro e he
  unfold ensurePlayerEntry at he
  split_ifs at he
  · exact h e he
  · rcases List.mem_append.mp he with h1 | h1
    · exact h e h1
    · simp only [List.mem_singleton] at h1
      subst h1
      rfl

theorem initStatsMap_rating (ms : List MatchWithRelations) :
    ∀ e ∈ initStatsMap ms, e.rating = BASE_RATING := by
  unfold initStatsMap
  suffices h : ∀ es, (∀ e ∈ es, e.rating = BASE_RATING) →
      ∀ e ∈ ms.foldl (fun es m =>
        ensurePlayerEntry (ensurePlayerEntry es m.playerOneId m.playerOneName)
          m.playerTwoId m.playerTwoName) es, e.rating = BASE_RATING by
    exact h [] (by simp)
  induction ms with
  | nil => intro es h; simpa using h
  | cons m rest ih =>
    intro es h
    rw [List.foldl_cons]
    exact ih _ (ensurePlayerEntry_rating _ _ _ (ensurePlayerEntry_rating _ _ _ h))

theorem entryRating_updateEntry (entries : List StatsEntry) (k p : ℤ)
    (f : StatsEntry → StatsEntry) (hf : ∀ e, (f e).playerId = e.playerId) :
    entryRating (updateEntry entries k f) p =
      match entries.find? (fun e => e.playerId == p) with
      | some e => if e.playerId = k then (f e).rating else e.rating
      | none => BASE_RATING := by
  unfold entryRating updateEntry
  rw [List.find?_map]
  have hcomp : ((fun e : StatsEntry => e.playerId == p) ∘
      fun e => if e.playerId = k then f e else e) = (fun e => e.playerId == p) := by
    funext e
    by_cases h : e.playerId = k <;> simp [h, hf]
  rw [hcomp]
  cases hfind : entries.find? (fun e => e.playerId == p) with
  | none => rfl
  | some e =>
    by_cases h : e.playerId = k <;> simp [h]

theorem find?_key_exists (entries : List StatsEntry) (p : ℤ)
    (h : ∃ e ∈ entries, e.playerId = p) :
    ∃ e, entries.find? (fun e => e.playerId == p) = some e ∧ e.playerId = p := by
  have hsome : (entries.find? (fun e => e.playerId == p)).isSome := by
    rw [List.find?_isSome]
    obtain ⟨e, he, hk⟩ := h
    exact ⟨e, he, by simpa using hk⟩
  obtain ⟨e, he⟩ := Option.isSome_iff_exists.mp hsome
  exact ⟨e, he, by simpa using List.find?_some he⟩

theorem entryRating_updateEntry_ne (entries : List StatsEntry) (k p : ℤ)
    (f : StatsEntry → StatsEntry) (hf : ∀ e, (f e).playerId = e.playerId)
    (hne : p ≠ k) :
    entryRating (updateEntry entries k f) p = entryRating entries p := by
  rw [entryRating_updateEntry entries k p f hf]
  unfold entryRating
  cases hfind : entries.find? (fun e => e.playerId == p) with
  | none => rfl
  | some e =>
    have he := List.find?_some hfind
    simp only [beq_iff_eq] at he
    simp [he, hne]

theorem exists_key_updateEntry (entries : List StatsEntry) (k p : ℤ)
    (f : StatsEntry → StatsEntry) (hf : ∀ e, (f e).playerId = e.playerId)
    (hmem : ∃ e ∈ entries, e.playerId = p) :
    ∃ e ∈ updateEntry entries k f, e.playerId = p := by
  obtain ⟨e, he, hk⟩ := hmem
  by_cases h : e.playerId = k
  · refine ⟨f e, ?_, by rw [hf, hk]⟩
    unfold updateEntry
    exact List.mem_map.mpr ⟨e, he, by rw [if_pos h]⟩
  · refine ⟨e, ?_, hk⟩
    unfold updateEntry
    exact List.mem_map.mpr ⟨e, he, by rw [if_neg h]⟩

/-- The rating written to the `playerOne` side by `processMatch`. -/
theorem processMatch_rating_one (Ea : ℤ → ℤ → ℚ) (entries : List StatsEntry)
    (m : MatchWithRelations) (h12 : m.playerOneId ≠ m.playerTwoId)
    (h1 : ∃ e ∈ entries, e.playerId = m.playerOneId) :
    entryRating (processMatch Ea entries m) m.playerOneId =
      round ((entryRating entries m.playerOneId : ℚ) + K *
        ((if m.winnerId = m.playerOneId then 1 else 0) -
          Ea (entryRating entries m.playerOneId) (entryRating entries m.playerTwoId))) := by
  simp only [processMatch]
  rw [entryRating_updateEntry_ne]
  rotate_left
  · intro e; rfl
  · exact h12
  rw [entryRating_updateEntry]
  rotate_left
  · intro e; rfl
  obtain ⟨e0, hfind, hk0⟩ := find?_key_exists entries m.playerOneId h1
  rw [hfind]
  by_cases hw : m.winnerId = m.playerOneId <;> simp [hk0, hw]

/-- The rating written to the `playerTwo` side by `processMatch`. -/
theorem processMatch_rating_two (Ea : ℤ → ℤ → ℚ) (entries : List StatsEntry)
    (m : MatchWithRelations) (h2 : ∃ e ∈ entries, e.playerId = m.playerTwoId) :
    entryRating (processMatch Ea entries m) m.playerTwoId =
      round ((entryRating entries m.playerTwoId : ℚ) + K *
        ((if m.winnerId = m.playerOneId then 0 else 1) -
          (1 - Ea (entryRating entries m.playerOneId) (entryRating entries m.playerTwoId)))) := by
  simp only [processMatch]
  rw [entryRating_updateEntry]
  rotate_left
  · intro e; rfl
  have h2' : ∃ e ∈ updateEntry entries m.playerOneId (fun en =>
      { en with
        matchesPlayed := en.matchesPlayed + 1
        pointsFor := en.pointsFor + m.playerOnePoints
        pointsAgainst := en.pointsAgainst + m.playerTwoPoints
        wins := if m.winnerId = m.playerOneId then en.wins + 1 else en.wins
        losses := if m.winnerId = m.playerOneId then en.losses else en.losses + 1
        rating := round ((entryRating entries m.playerOneId : ℚ) + K *
          ((if m.winnerId = m.playerOneId then (1 : ℚ) else 0) -
            Ea (entryRating entries m.playerOneId) (entryRating entries m.playerTwoId))) }),
      e.playerId = m.playerTwoId := by
    apply exists_key_updateEntry
    · intro e; rfl
    · exact h2
  obtain ⟨e0, hfind, hk0⟩ := find?_key_exists _ m.playerTwoId h2'
  rw [hfind]
  by_cases hw : m.winnerId = m.playerOneId <;> simp [hk0, hw]

/-- C1.  Within a season every player starts at the base rating 1000 on
first appearance; each processed match updates the two sides' ratings
to `round(Ra + 32*(Sa - Ea))` and `round(Rb + 32*(Sb - (1 - Ea)))`
(winner score 1, loser score 0); and for a season holding exactly one
match between two players, the winner ends at rating 1016 and the
loser at 984 (the expected score of two equal ratings being exactly
1/2). -/
theorem C1_elo_rating (Ea : ℤ → ℤ → ℚ) (m : MatchWithRelations)
    (hE : Ea BASE_RATING BASE_RATING = 1 / 2)
    (h12 : m.playerOneId ≠ m.playerTwoId) :
    (∀ ms : List MatchWithRelations, ∀ e ∈ initStatsMap ms, e.rating = BASE_RATING) ∧
    (∀ (entries : List StatsEntry) (m' : MatchWithRelations),
      m'.playerOneId ≠ m'.playerTwoId →
      (∃ e ∈ entries, e.playerId = m'.playerOneId) →
      (∃ e ∈ entries, e.playerId = m'.playerTwoId) →
      entryRating (processMatch Ea entries m') m'.playerOneId =
        round ((entryRating entries m'.playerOneId : ℚ) + K *
          ((if m'.winnerId = m'.playerOneId then 1 else 0) -
            Ea (entryRating entries m'.playerOneId) (entryRating entries m'.playerTwoId))) ∧
      entryRating (processMatch Ea entries m') m'.playerTwoId =
        round ((entryRating entries m'.playerTwoId : ℚ) + K *
          ((if m'.winnerId = m'.playerOneId then 0 else 1) -
            (1 - Ea (entryRating entries m'.playerOneId)
              (entryRating entries m'.playerTwoId))))) ∧
    ((m.winnerId = m.playerOneId →
        standingRating (calculateSeasonStandings Ea [m]) m.playerOneId = some 1016 ∧
        standingRating (calculateSeasonStandings Ea [m]) m.playerTwoId = some 984) ∧
      (m.winnerId = m.playerTwoId →
        standingRating (calculateSeasonStandings Ea [m]) m.playerTwoId = some 1016 ∧
        standingRating (calculateSeasonStandings Ea [m]) m.playerOneId = some 984)) := by
  have hne : ¬ m.playerTwoId = m.playerOneId := fun h => h12 h.symm
  have hE' : Ea 1000 1000 = 1 / 2 := hE
  refine ⟨initStatsMap_rating, ?_, ?_, ?_⟩
  · intro entries m' h12' h1 h2
    exact ⟨processMatch_rating_one Ea entries m' h12' h1,
      processMatch_rating_two Ea entries m' h2⟩
  · intro hw
    constructor
    · simp [calculateSeasonStandings, sortByPlayedAt, List.insertionSort,
        List.orderedInsert, initStatsMap, ensurePlayerEntry, initialEntry,
        processMatch, entryRating, updateEntry, toStanding, compareStandings,
        standingRating, BASE_RATING, K, hw, h12, hne, hE']
      norm_num [round_eq]
    · simp [calculateSeasonStandings, sortByPlayedAt, List.insertionSort,
        List.orderedInsert, initStatsMap, ensurePlayerEntry, initialEntry,
        processMatch, entryRating, updateEntry, toStanding, compareStandings,
        standingRating, BASE_RATING, K, hw, h12, hne, hE']
      norm_num [round_eq]
      exact ⟨_, Or.inr ⟨h12, rfl⟩, rfl⟩
  · intro hw
    have hwne : ¬ m.winnerId = m.playerOneId := by
      rw [hw]; exact hne
    constructor
    · simp [calculateSeasonStandings, sortByPlayedAt, List.insertionSort,
        List.orderedInsert, initStatsMap, ensurePlayerEntry, initialEntry,
        processMatch, entryRating, updateEntry, toStanding, compareStandings,
        standingRating, BASE_RATING, K, hw, hwne, h12, hne, hE']
      norm_num [round_eq]
    · simp [calculateSeasonStandings, sortByPlayedAt, List.insertionSort,
        List.orderedInsert, initStatsMap, ensurePlayerEntry, initialEntry,
        processMatch, entryRating, updateEntry, toStanding, compareStandings,
        standingRating, BASE_RATING, K, hw, hwne, h12, hne, hE']
      norm_num [round_eq]
      exact ⟨_, Or.inr ⟨hne, rfl⟩, rfl⟩

/-- Witness for C1: for the constant expected score 1/2 and the single
demo match (player 1 beats player 2), the final ratings are 1016 and
984. -/
theorem C1_elo_rating_witness :
    standingRating (calculateSeasonStandings halfEa [demoMatch]) 1 = some 1016 ∧
    standingRating (calculateSeasonStandings halfEa [demoMatch]) 2 = some 984 :=
  (C1_elo_rating halfEa demoMatch (by norm_num [halfEa]) (by decide)).2.2.1 rfl

/-! ## Champion assignment (claim C4) -/

theorem championUpdateFor_eq_some (Ea : ℤ → ℤ → ℚ) (now : ℤ) (s : SeasonRow)
    (c : ℤ) :
    championUpdateFor Ea now s = some c ↔
      s.endDateMillis < now ∧
        ∃ top rest, calculateSeasonStandings Ea s.matchList = top :: rest ∧
          s.championId ≠ some top.playerId ∧ c = top.playerId := by
  unfold championUpdateFor
  split_ifs with hpast
  · cases hst : calculateSeasonStandings Ea s.matchList with
    | nil => simp [hpast]
    | cons top rest =>
      by_cases heq : s.championId = some top.playerId <;> simp [hpast, heq, eq_comm]
  · simp [hpast]

theorem championUpdate_idem (Ea : ℤ → ℤ → ℚ) (now : ℤ) (s : SeasonRow) :
    championUpdateFor Ea now (applyChampionUpdate Ea now s) = none := by
  cases hc : championUpdateFor Ea now s with
  | none =>
    unfold applyChampionUpdate
    rw [hc]
    exact hc
  | some c =>
    rw [championUpdateFor_eq_some] at hc
    obtain ⟨hpast, top, rest, hst, hne, rfl⟩ := hc
    have hsome : championUpdateFor Ea now s = some top.playerId :=
      (championUpdateFor_eq_some Ea now s top.playerId).mpr
        ⟨hpast, top, rest, hst, hne, rfl⟩
    have happ : applyChampionUpdate Ea now s =
        { s with championId := some top.playerId } := by
      unfold applyChampionUpdate
      rw [hsome]
    rw [happ]
    unfold championUpdateFor
    simp [hpast, hst]

theorem applyChampionUpdate_of_none (Ea : ℤ → ℤ → ℚ) (now : ℤ) (s : SeasonRow)
    (h : championUpdateFor Ea now s = none) : applyChampionUpdate Ea now s = s := by
  unfold applyChampionUpdate
  rw [h]

/-- C4, amended: champion assignment still happens only for seasons
whose end boundary is past and persists the top-ranked player of the
season standings, but the source compares the stored champion against
the *computed* one (`season.championId === championId`) rather than
checking that no champion is recorded: a write occurs exactly when the
stored value differs from the computed top player (in particular when
none is recorded).  Consequently re-running the determination is
idempotent — the second run changes nothing and performs no write —
and a season whose stored champion already equals the computed top is
left untouched; but a season with a *different* recorded champion is
overwritten (see `C4_champions_counterexample`). -/
theorem C4_champions_amended (Ea : ℤ → ℤ → ℚ) (now : ℤ) (seasons : List SeasonRow) :
    (ensurePastSeasonChampions Ea now (ensurePastSeasonChampions Ea now seasons).1 =
      ((ensurePastSeasonChampions Ea now seasons).1, [])) ∧
    (∀ w ∈ (ensurePastSeasonChampions Ea now seasons).2,
      ∃ s ∈ seasons, w.1 = s.id ∧ s.endDateMillis < now ∧ s.championId ≠ some w.2 ∧
        ∃ top rest, calculateSeasonStandings Ea s.matchList = top :: rest ∧
          top.playerId = w.2) ∧
    (∀ s : SeasonRow, ∀ top : SeasonStanding, ∀ rest : List SeasonStanding,
      s.endDateMillis < now →
      calculateSeasonStandings Ea s.matchList = top :: rest →
      s.championId = some top.playerId → applyChampionUpdate Ea now s = s) := by
  refine ⟨?_, ?_, ?_⟩
  · have hnone : ∀ s' ∈ (ensurePastSeasonChampions Ea now seasons).1,
        championUpdateFor Ea now s' = none := by
      intro s' hs'
      simp only [ensurePastSeasonChampions, List.mem_map] at hs'
      obtain ⟨s, -, rfl⟩ := hs'
      exact championUpdate_idem Ea now s
    simp only [ensurePastSeasonChampions, Prod.mk.injEq]
    constructor
    · have hid : List.map (applyChampionUpdate Ea now)
          (List.map (applyChampionUpdate Ea now) seasons) =
          List.map id (List.map (applyChampionUpdate Ea now) seasons) := by
        apply List.map_congr_left
        intro s' hs'
        exact applyChampionUpdate_of_none Ea now s'
          (hnone s' (by simpa [ensurePastSeasonChampions] using hs'))
      rw [hid, List.map_id]
    · rw [List.filterMap_eq_nil_iff]
      intro s' hs'
      rw [hnone s' (by simpa [ensurePastSeasonChampions] using hs')]
      rfl
  · intro w hw
    simp only [ensurePastSeasonChampions, List.mem_filterMap] at hw
    obtain ⟨s, hs, hfs⟩ := hw
    cases hc : championUpdateFor Ea now s with
    | none => rw [hc] at hfs; simp at hfs
    | some c =>
      rw [hc] at hfs
      simp only [Option.map_some', Option.some.injEq] at hfs
      subst hfs
      rw [championUpdateFor_eq_some] at hc
      obtain ⟨hpast, top, rest, hst, hne, rfl⟩ := hc
      exact ⟨s, hs, rfl, hpast, hne, top, rest, hst, rfl⟩
  · intro s top rest hpast hst hchamp
    apply applyChampionUpdate_of_none
    cases hc : championUpdateFor Ea now s with
    | none => rfl
    | some c =>
      rw [championUpdateFor_eq_some] at hc
      obtain ⟨-, top', rest', hst', hne', rfl⟩ := hc
      rw [hst] at hst'
      obtain ⟨rfl, -⟩ : top = top' ∧ rest = rest' := by
        constructor <;> [exact (List.cons.injEq _ _ _ _ ▸ hst').1;
          exact (List.cons.injEq _ _ _ _ ▸ hst').2]
      exact absurd hchamp hne'

/-- Concrete evaluation of the standings of the one-match demo season. -/
theorem demo_standings :
    calculateSeasonStandings halfEa [demoMatch] =
      [demoWinnerStanding, demoLoserStanding] := by
  simp [demoWinnerStanding, demoLoserStanding, calculateSeasonStandings, sortByPlayedAt, List.insertionSort,
    List.orderedInsert, initStatsMap, ensurePlayerEntry, initialEntry,
    processMatch, entryRating, updateEntry, toStanding, compareStandings,
    demoMatch, halfEa, BASE_RATING, K]
  norm_num [round_eq]

/-- C4, counterexample to the claim as stated: a past season whose
recorded champion (player 99) differs from the computed top player
(player 1) is *re-written* by `ensurePastSeasonChampions` — a write is
performed and the stored `championId` changes, even though a champion
was already assigned. -/
theorem C4_champions_counterexample :
    staleChampionSeason.championId = some 99 ∧
    (ensurePastSeasonChampions halfEa 300 [staleChampionSeason]).2 = [(5, 1)] ∧
    (ensurePastSeasonChampions halfEa 300 [staleChampionSeason]).1.map
      SeasonRow.championId = [some 1] := by
  refine ⟨rfl, ?_, ?_⟩ <;>
    simp [ensurePastSeasonChampions, applyChampionUpdate, championUpdateFor,
      staleChampionSeason, demo_standings, demoWinnerStanding]

/-- Witness for C4: on a past season with no recorded champion, the
single performed write persists the top-ranked player, and that write
satisfies the characterisation of the amended theorem. -/
theorem C4_champions_amended_witness :
    (ensurePastSeasonChampions halfEa 300
        (ensurePastSeasonChampions halfEa 300 [freshChampionSeason]).1 =
      ((ensurePastSeasonChampions halfEa 300 [freshChampionSeason]).1, [])) ∧
    ∃ s ∈ [freshChampionSeason], (5, 1).1 = s.id ∧ s.endDateMillis < 300 ∧
      s.championId ≠ some (5, 1).2 ∧
      ∃ top rest, calculateSeasonStandings halfEa s.matchList = top :: rest ∧
        top.playerId = (5, 1).2 := by
  constructor
  · exact (C4_champions_amended halfEa 300 [freshChampionSeason]).1
  · apply (C4_champions_amended halfEa 300 [freshChampionSeason]).2.1 (5, 1)
    simp [ensurePastSeasonChampions, applyChampionUpdate, championUpdateFor,
      freshChampionSeason, demo_standings, demoWinnerStanding]

/-! ## Conservation lemmas (claim C10) -/

theorem keys_updateEntry (E : List StatsEntry) (k : ℤ) (f : StatsEntry → StatsEntry)
    (hkey : ∀ e, (f e).playerId = e.playerId) :
    entryKeys (updateEntry E k f) = entryKeys E := by
  unfold entryKeys updateEntry
  rw [List.map_map]
  apply List.map_congr_left
  intro e _
  by_cases h : e.playerId = k <;> simp [h, hkey]

theorem keys_processMatch (Ea : ℤ → ℤ → ℚ) (E : List StatsEntry)
    (m : MatchWithRelations) :
    entryKeys (processMatch Ea E m) = entryKeys E := by
  simp only [processMatch]
  rw [keys_updateEntry, keys_updateEntry] <;> intro e <;> rfl

theorem keys_foldl_processMatch (Ea : ℤ → ℤ → ℚ) (l : List MatchWithRelations)
    (E : List StatsEntry) :
    entryKeys (l.foldl (processMatch Ea) E) = entryKeys E := by
  induction l generalizing E with
  | nil => rfl
  | cons m rest ih => rw [List.foldl_cons, ih, keys_processMatch]

theorem sum_map_updateEntry (g : StatsEntry → ℤ) (E : List StatsEntry) (k : ℤ)
    (f : StatsEntry → StatsEntry) (c : ℤ) (hg : ∀ e, g (f e) = g e + c) :
    ((updateEntry E k f).map g).sum =
      (E.map g).sum + c * (((entryKeys E).count k : ℕ) : ℤ) := by
  induction E with
  | nil => simp [updateEntry, entryKeys]
  | cons e E ih =>
    simp only [updateEntry, entryKeys, List.map_cons, List.sum_cons,
      List.count_cons] at *
    by_cases h : e.playerId = k
    · rw [if_pos h]
      have hbe : (e.playerId == k) = true := by simp [h]
      rw [hbe, hg, ih]
      simp only [eq_self_iff_true, if_true]
      push_cast
      ring
    · rw [if_neg h]
      have hbe : (e.playerId == k) = false := by rw [beq_eq_false_iff_ne]; exact h
      rw [hbe, ih]
      simp only [Bool.false_eq_true, if_false]
      push_cast
      ring

theorem sum_updates_general (k1 k2 : ℤ) (f1 f2 : StatsEntry → StatsEntry)
    (g : StatsEntry → ℤ) (d1 d2 : ℤ)
    (hg1 : ∀ e, g (f1 e) = g e + d1) (hg2 : ∀ e, g (f2 e) = g e + d2)
    (hkey1 : ∀ e, (f1 e).playerId = e.playerId)
    (E : List StatsEntry) (hnd : (entryKeys E).Nodup)
    (h1 : k1 ∈ entryKeys E) (h2 : k2 ∈ entryKeys E) :
    ((updateEntry (updateEntry E k1 f1) k2 f2).map g).sum =
      (E.map g).sum + d1 + d2 := by
  have hc1 : (entryKeys E).count k1 = 1 := List.count_eq_one_of_mem hnd h1
  have hc2 : (entryKeys E).count k2 = 1 := List.count_eq_one_of_mem hnd h2
  rw [sum_map_updateEntry g _ k2 f2 d2 hg2, keys_updateEntry E k1 f1 hkey1,
    sum_map_updateEntry g E k1 f1 d1 hg1, hc1, hc2]
  push_cast
  ring

theorem initStatsMap_zero (ms : List MatchWithRelations) :
    ∀ e ∈ initStatsMap ms, e.wins = 0 ∧ e.losses = 0 ∧ e.matchesPlayed = 0 ∧
      e.pointsFor = 0 ∧ e.pointsAgainst = 0 := by
  unfold initStatsMap
  suffices h : ∀ es, (∀ e ∈ es, e.wins = 0 ∧ e.losses = 0 ∧ e.matchesPlayed = 0 ∧
      e.pointsFor = 0 ∧ e.pointsAgainst = 0) →
      ∀ e ∈ ms.foldl (fun es m =>
        ensurePlayerEntry (ensurePlayerEntry es m.playerOneId m.playerOneName)
          m.playerTwoId m.playerTwoName) es, e.wins = 0 ∧ e.losses = 0 ∧
        e.matchesPlayed = 0 ∧ e.pointsFor = 0 ∧ e.pointsAgainst = 0 by
    exact h [] (by simp)
  have hstep : ∀ (es : List StatsEntry) (pid : ℤ) (pname : String),
      (∀ e ∈ es, e.wins = 0 ∧ e.losses = 0 ∧ e.matchesPlayed = 0 ∧
        e.pointsFor = 0 ∧ e.pointsAgainst = 0) →
      ∀ e ∈ ensurePlayerEntry es pid pname, e.wins = 0 ∧ e.losses = 0 ∧
        e.matchesPlayed = 0 ∧ e.pointsFor = 0 ∧ e.pointsAgainst = 0 := by
    intro es pid pname h e he
    unfold ensurePlayerEntry at he
    split_ifs at he
    · exact h e he
    · rcases List.mem_append.mp he with h1 | h1
      · exact h e h1
      · simp only [List.mem_singleton] at h1
        subst h1
        exact ⟨rfl, rfl, rfl, rfl, rfl⟩
  induction ms with
  | nil => intro es h; simpa using h
  | cons m rest ih =>
    intro es h
    rw [List.foldl_cons]
    exact ih _ (hstep _ _ _ (hstep _ _ _ h))

theorem keys_ensurePlayerEntry (E : List StatsEntry) (pid : ℤ) (pname : String) :
    entryKeys (ensurePlayerEntry E pid pname) =
      if pid ∈ entryKeys E then entryKeys E else entryKeys E ++ [pid] := by
  unfold ensurePlayerEntry entryKeys
  by_cases h : pid ∈ E.map (fun e => e.playerId)
  · rw [if_pos, if_pos h]
    rw [List.any_eq_true]
    obtain ⟨x, hx, hpx⟩ := List.mem_map.mp h
    exact ⟨x, hx, by simpa using hpx⟩
  · rw [if_neg, if_neg h]
    · simp [initialEntry]
    · rw [List.any_eq_true]
      rintro ⟨x, hx, hpx⟩
      exact h (List.mem_map.mpr ⟨x, hx, by simpa using hpx⟩)

theorem initStatsMap_keys (ms : List MatchWithRelations) :
    (entryKeys (initStatsMap ms)).Nodup ∧
    ∀ m ∈ ms, m.playerOneId ∈ entryKeys (initStatsMap ms) ∧
      m.playerTwoId ∈ entryKeys (initStatsMap ms) := by
  unfold initStatsMap
  suffices h : ∀ es, (entryKeys es).Nodup →
      (entryKeys (ms.foldl (fun es m =>
        ensurePlayerEntry (ensurePlayerEntry es m.playerOneId m.playerOneName)
          m.playerTwoId m.playerTwoName) es)).Nodup ∧
      (∀ k ∈ entryKeys es, k ∈ entryKeys (ms.foldl (fun es m =>
        ensurePlayerEntry (ensurePlayerEntry es m.playerOneId m.playerOneName)
          m.playerTwoId m.playerTwoName) es)) ∧
      ∀ m ∈ ms, m.playerOneId ∈ entryKeys (ms.foldl (fun es m =>
          ensurePlayerEntry (ensurePlayerEntry es m.playerOneId m.playerOneName)
            m.playerTwoId m.playerTwoName) es) ∧
        m.playerTwoId ∈ entryKeys (ms.foldl (fun es m =>
          ensurePlayerEntry (ensurePlayerEntry es m.playerOneId m.playerOneName)
            m.playerTwoId m.playerTwoName) es) by
    obtain ⟨h1, -, h3⟩ := h [] (by simp [entryKeys])
    exact ⟨h1, h3⟩
  have hens : ∀ (es : List StatsEntry) (pid : ℤ) (pname : String),
      ((entryKeys es).Nodup → (entryKeys (ensurePlayerEntry es pid pname)).Nodup) ∧
      (∀ k ∈ entryKeys es, k ∈ entryKeys (ensurePlayerEntry es pid pname)) ∧
      pid ∈ entryKeys (ensurePlayerEntry es pid pname) := by
    intro es pid pname
    rw [keys_ensurePlayerEntry]
    by_cases h : pid ∈ entryKeys es
    · rw [if_pos h]
      exact ⟨id, fun k hk => hk, h⟩
    · rw [if_neg h]
      refine ⟨?_, fun k hk => List.mem_append.mpr (Or.inl hk),
        List.mem_append.mpr (Or.inr (by simp))⟩
      intro hnd
      rw [List.nodup_append]
      exact ⟨hnd, List.nodup_singleton pid, by simpa using h⟩
  induction ms with
  | nil =>
    intro es hnd
    exact ⟨hnd, fun k hk => hk, by simp⟩
  | cons m rest ih =>
    intro es hnd
    rw [List.foldl_cons]
    set es' := ensurePlayerEntry (ensurePlayerEntry es m.playerOneId m.playerOneName)
      m.playerTwoId m.playerTwoName with hes'
    have h1 := hens es m.playerOneId m.playerOneName
    have h2 := hens (ensurePlayerEntry es m.playerOneId m.playerOneName)
      m.playerTwoId m.playerTwoName
    have hnd' : (entryKeys es').Nodup := h2.1 (h1.1 hnd)
    obtain ⟨ha, hb, hc⟩ := ih es' hnd'
    refine ⟨ha, fun k hk => hb k (h2.2.1 k (h1.2.1 k hk)), ?_⟩
    intro m' hm'
    rcases List.mem_cons.mp hm' with rfl | hm'
    · exact ⟨hb _ (h2.2.1 _ h1.2.2), hb _ h2.2.2⟩
    · exact hc m' hm'

theorem forall_mem_updateEntry {P : StatsEntry → Prop} (E : List StatsEntry) (k : ℤ)
    (f : StatsEntry → StatsEntry) (hP : ∀ e ∈ E, P e) (hf : ∀ e, P e → P (f e)) :
    ∀ e ∈ updateEntry E k f, P e := by
  intro e he
  unfold updateEntry at he
  obtain ⟨e', he', heq⟩ := List.mem_map.mp he
  subst heq
  by_cases h : e'.playerId = k
  · rw [if_pos h]
    exact hf e' (hP e' he')
  · rw [if_neg h]
    exact hP e' he'

theorem sums_processMatch (Ea : ℤ → ℤ → ℚ) (E : List StatsEntry)
    (m : MatchWithRelations) (hnd : (entryKeys E).Nodup)
    (h1 : m.playerOneId ∈ entryKeys E) (h2 : m.playerTwoId ∈ entryKeys E) :
    ((processMatch Ea E m).map (fun e => e.wins)).sum =
      (E.map (fun e => e.wins)).sum + 1 ∧
    ((processMatch Ea E m).map (fun e => e.losses)).sum =
      (E.map (fun e => e.losses)).sum + 1 ∧
    ((processMatch Ea E m).map (fun e => e.pointsFor)).sum =
      (E.map (fun e => e.pointsFor)).sum + (m.playerOnePoints + m.playerTwoPoints) ∧
    ((processMatch Ea E m).map (fun e => e.pointsAgainst)).sum =
      (E.map (fun e => e.pointsAgainst)).sum + (m.playerOnePoints + m.playerTwoPoints) := by
  by_cases hw : m.winnerId = m.playerOneId
  · simp only [processMatch, hw, if_true]
    refine ⟨?_, ?_, ?_, ?_⟩
    · refine Eq.trans (sum_updates_general _ _ _ _ _ 1 0 ?_ ?_ ?_ _ hnd h1 h2) (by ring)
      all_goals intro e
      all_goals simp
    · refine Eq.trans (sum_updates_general _ _ _ _ _ 0 1 ?_ ?_ ?_ _ hnd h1 h2) (by ring)
      all_goals intro e
      all_goals simp
    · refine Eq.trans (sum_updates_general _ _ _ _ _ m.playerOnePoints
        m.playerTwoPoints ?_ ?_ ?_ _ hnd h1 h2) (by ring)
      all_goals intro e
      all_goals simp
    · refine Eq.trans (sum_updates_general _ _ _ _ _ m.playerTwoPoints
        m.playerOnePoints ?_ ?_ ?_ _ hnd h1 h2) (by ring)
      all_goals intro e
      all_goals simp
  · simp only [processMatch, hw, if_false]
    refine ⟨?_, ?_, ?_, ?_⟩
    · refine Eq.trans (sum_updates_general _ _ _ _ _ 0 1 ?_ ?_ ?_ _ hnd h1 h2) (by ring)
      all_goals intro e
      all_goals simp
    · refine Eq.trans (sum_updates_general _ _ _ _ _ 1 0 ?_ ?_ ?_ _ hnd h1 h2) (by ring)
      all_goals intro e
      all_goals simp
    · refine Eq.trans (sum_updates_general _ _ _ _ _ m.playerOnePoints
        m.playerTwoPoints ?_ ?_ ?_ _ hnd h1 h2) (by ring)
      all_goals intro e
      all_goals simp
    · refine Eq.trans (sum_updates_general _ _ _ _ _ m.playerTwoPoints
        m.playerOnePoints ?_ ?_ ?_ _ hnd h1 h2) (by ring)
      all_goals intro e
      all_goals simp

theorem sums_foldl_processMatch (Ea : ℤ → ℤ → ℚ) (l : List MatchWithRelations)
    (E : List StatsEntry) (hnd : (entryKeys E).Nodup)
    (hpres : ∀ m ∈ l, m.playerOneId ∈ entryKeys E ∧ m.playerTwoId ∈ entryKeys E) :
    ((l.foldl (processMatch Ea) E).map (fun e => e.wins)).sum =
      (E.map (fun e => e.wins)).sum + l.length ∧
    ((l.foldl (processMatch Ea) E).map (fun e => e.losses)).sum =
      (E.map (fun e => e.losses)).sum + l.length ∧
    ((l.foldl (processMatch Ea) E).map (fun e => e.pointsFor)).sum -
        ((l.foldl (processMatch Ea) E).map (fun e => e.pointsAgainst)).sum =
      (E.map (fun e => e.pointsFor)).sum - (E.map (fun e => e.pointsAgainst)).sum := by
  induction l generalizing E with
  | nil => simp
  | cons m rest ih =>
    have hm := hpres m (List.mem_cons_self m rest)
    have hstep := sums_processMatch Ea E m hnd hm.1 hm.2
    have hnd' : (entryKeys (processMatch Ea E m)).Nodup := by
      rw [keys_processMatch]
      exact hnd
    have hpres' : ∀ m' ∈ rest, m'.playerOneId ∈ entryKeys (processMatch Ea E m) ∧
        m'.playerTwoId ∈ entryKeys (processMatch Ea E m) := by
      intro m' hm'
      rw [keys_processMatch]
      exact hpres m' (List.mem_cons_of_mem m hm')
    obtain ⟨ihw, ihl, ihd⟩ := ih (processMatch Ea E m) hnd' hpres'
    rw [List.foldl_cons]
    obtain ⟨hsw, hsl, hsf, hsa⟩ := hstep
    refine ⟨?_, ?_, ?_⟩
    · rw [ihw, hsw]
      simp only [List.length_cons]
      push_cast
      ring
    · rw [ihl, hsl]
      simp only [List.length_cons]
      push_cast
      ring
    · rw [ihd, hsf, hsa]
      ring

theorem winloss_foldl_processMatch (Ea : ℤ → ℤ → ℚ) (l : List MatchWithRelations)
    (E : List StatsEntry) (hP : ∀ e ∈ E, e.wins + e.losses = e.matchesPlayed) :
    ∀ e ∈ l.foldl (processMatch Ea) E, e.wins + e.losses = e.matchesPlayed := by
  induction l generalizing E with
  | nil => simpa using hP
  | cons m rest ih =>
    rw [List.foldl_cons]
    apply ih
    simp only [processMatch]
    apply forall_mem_updateEntry
    · apply forall_mem_updateEntry
      · exact hP
      · intro e he
        by_cases hw : m.winnerId = m.playerOneId <;> simp [hw] <;> omega
    · intro e he
      by_cases hw : m.winnerId = m.playerOneId <;> simp [hw] <;> omega

/-- C10.  Standings conservation: every entry satisfies
`wins + losses = matches` and `winRate = wins / matches` (0 when
`matches = 0`); summed over all entries, total wins and total losses
each equal the number of input matches, and the point differentials
cancel to 0. -/
theorem C10_conservation (Ea : ℤ → ℤ → ℚ) (ms : List MatchWithRelations) :
    (∀ e ∈ calculateSeasonStandings Ea ms,
      e.wins + e.losses = e.matchesPlayed ∧
      e.winRate = if e.matchesPlayed = 0 then 0
        else (e.wins : ℚ) / (e.matchesPlayed : ℚ)) ∧
    totalWins (calculateSeasonStandings Ea ms) = ms.length ∧
    totalLosses (calculateSeasonStandings Ea ms) = ms.length ∧
    totalPointDiff (calculateSeasonStandings Ea ms) = 0 := by
  obtain ⟨hnd, hpres0⟩ := initStatsMap_keys ms
  have hpres : ∀ m ∈ sortByPlayedAt ms,
      m.playerOneId ∈ entryKeys (initStatsMap ms) ∧
      m.playerTwoId ∈ entryKeys (initStatsMap ms) := by
    intro m hm
    exact hpres0 m ((List.mem_insertionSort _).mp hm)
  have hzero := initStatsMap_zero ms
  have hsum0 : ∀ g : StatsEntry → ℤ, (∀ e, (e.wins = 0 ∧ e.losses = 0 ∧
      e.matchesPlayed = 0 ∧ e.pointsFor = 0 ∧ e.pointsAgainst = 0) → g e = 0) →
      ((initStatsMap ms).map g).sum = 0 := by
    intro g hg
    apply List.sum_eq_zero
    intro x hx
    obtain ⟨e, he, rfl⟩ := List.mem_map.mp hx
    exact hg e (hzero e he)
  set E' := (sortByPlayedAt ms).foldl (processMatch Ea) (initStatsMap ms) with hE'
  have hlen : (sortByPlayedAt ms).length = ms.length :=
    (List.perm_insertionSort _ ms).length_eq
  obtain ⟨hW, hL, hD⟩ := sums_foldl_processMatch Ea (sortByPlayedAt ms)
    (initStatsMap ms) hnd hpres
  have hperm : List.Perm (calculateSeasonStandings Ea ms) (E'.map toStanding) := by
    simp only [calculateSeasonStandings, hE']
    exact List.perm_insertionSort _ _
  have hsum : ∀ g : SeasonStanding → ℤ,
      ((calculateSeasonStandings Ea ms).map g).sum = ((E'.map toStanding).map g).sum :=
    fun g => (hperm.map g).sum_eq
  refine ⟨?_, ?_, ?_, ?_⟩
  · intro e he
    have he' : e ∈ E'.map toStanding := hperm.mem_iff.mp he
    obtain ⟨e0, he0, rfl⟩ := List.mem_map.mp he'
    have hwl := winloss_foldl_processMatch Ea (sortByPlayedAt ms) (initStatsMap ms)
      (fun e he => by
        obtain ⟨h1, h2, h3, -⟩ := hzero e he
        omega) e0 he0
    constructor
    · simpa [toStanding] using hwl
    · simp [toStanding]
  · rw [show totalWins (calculateSeasonStandings Ea ms) =
        ((calculateSeasonStandings Ea ms).map (fun s => s.wins)).sum from rfl,
      hsum, List.map_map]
    rw [show List.map ((fun s : SeasonStanding => s.wins) ∘ toStanding) E' =
        List.map (fun e => e.wins) E' from List.map_congr_left (fun e _ => rfl)]
    rw [hW, hsum0 (fun e => e.wins) (fun e h => h.1), hlen]
    ring
  · rw [show totalLosses (calculateSeasonStandings Ea ms) =
        ((calculateSeasonStandings Ea ms).map (fun s => s.losses)).sum from rfl,
      hsum, List.map_map]
    rw [show List.map ((fun s : SeasonStanding => s.losses) ∘ toStanding) E' =
        List.map (fun e => e.losses) E' from List.map_congr_left (fun e _ => rfl)]
    rw [hL, hsum0 (fun e => e.losses) (fun e h => h.2.1), hlen]
    ring
  · rw [show totalPointDiff (calculateSeasonStandings Ea ms) =
        ((calculateSeasonStandings Ea ms).map (fun s => s.pointDifferential)).sum from rfl,
      hsum, List.map_map]
    rw [show List.map ((fun s : SeasonStanding => s.pointDifferential) ∘ toStanding) E' =
        List.map (fun e => e.pointsFor - e.pointsAgainst) E' from
        List.map_congr_left (fun e _ => rfl)]
    have hsplit : (E'.map (fun e => e.pointsFor - e.pointsAgainst)).sum =
        (E'.map (fun e => e.pointsFor)).sum - (E'.map (fun e => e.pointsAgainst)).sum := by
      induction E' with
      | nil => simp
      | cons e t iht => simp only [List.map_cons, List.sum_cons, iht]; ring
    rw [hsplit, hD, hsum0 (fun e => e.pointsFor) (fun e h => h.2.2.2.1),
      hsum0 (fun e => e.pointsAgainst) (fun e h => h.2.2.2.2)]
    ring

/-- Witness for C10: on the one-match demo season the totals are 1 win,
1 loss, zero net point differential, and the top entry balances. -/
theorem C10_conservation_witness :
    (∃ e, e ∈ calculateSeasonStandings halfEa [demoMatch] ∧
      e.wins + e.losses = e.matchesPlayed ∧
      e.winRate = if e.matchesPlayed = 0 then 0
        else (e.wins : ℚ) / (e.matchesPlayed : ℚ)) ∧
    totalWins (calculateSeasonStandings halfEa [demoMatch]) = 1 ∧
    totalLosses (calculateSeasonStandings halfEa [demoMatch]) = 1 ∧
    totalPointDiff (calculateSeasonStandings halfEa [demoMatch]) = 0 := by
  have h := C10_conservation halfEa [demoMatch]
  have hmem : demoWinnerStanding ∈
      calculateSeasonStandings halfEa [demoMatch] := by
    rw [demo_standings]
    exact List.mem_cons_self _ _
  exact ⟨⟨_, hmem, h.1 _ hmem⟩, by simpa using h.2.1, by simpa using h.2.2.1, h.2.2.2⟩

/-! ## Delta/standings refinement lemmas (claim C2) -/

theorem assocRating_setRating (rs : List (ℤ × ℤ)) (k v p : ℤ) :
    assocRating (setRating rs k v) p = if p = k then v else assocRating rs p := by
  unfold setRating
  by_cases hany : rs.any (fun r => r.1 == k)
  · rw [if_pos hany]
    unfold assocRating
    rw [List.find?_map]
    have hcomp : ((fun r : ℤ × ℤ => r.1 == p) ∘
        fun r => if r.1 = k then (k, v) else r) = (fun r => r.1 == p) := by
      funext r
      by_cases h : r.1 = k <;> simp [h]
    rw [hcomp]
    by_cases hpk : p = k
    · subst hpk
      rw [if_pos rfl]
      have hsome : (rs.find? (fun r => r.1 == p)).isSome := by
        rw [List.find?_isSome]
        rw [List.any_eq_true] at hany
        obtain ⟨r, hr, hk⟩ := hany
        exact ⟨r, hr, hk⟩
      cases hfind : rs.find? (fun r => r.1 == p) with
      | none => rw [hfind] at hsome; simp at hsome
      | some r =>
        have hk := List.find?_some hfind
        simp only [beq_iff_eq] at hk
        simp [hk]
    · rw [if_neg hpk]
      cases hfind : rs.find? (fun r => r.1 == p) with
      | none => rfl
      | some r =>
        have hk := List.find?_some hfind
        simp only [beq_iff_eq] at hk
        have : ¬ r.1 = k := by rw [hk]; exact hpk
        simp [this]
  · rw [if_neg hany]
    unfold assocRating
    rw [List.find?_append]
    by_cases hpk : p = k
    · subst hpk
      have hnone : rs.find? (fun r => r.1 == p) = none := by
        rw [List.find?_eq_none]
        intro r hr hk
        exact hany (List.any_eq_true.mpr ⟨r, hr, hk⟩)
      rw [hnone]
      simp
    · have hlast : ([((k, v) : ℤ × ℤ)].find? (fun r => r.1 == p)) = none := by
        rw [List.find?_eq_none]
        intro r hr hbe
        simp only [List.mem_singleton] at hr
        subst hr
        simp only [beq_iff_eq] at hbe
        exact hpk hbe.symm
      rw [hlast]
      rw [if_neg hpk]
      cases rs.find? (fun r => r.1 == p) <;> rfl

theorem entryRating_processMatch_other (Ea : ℤ → ℤ → ℚ) (E : List StatsEntry)
    (m : MatchWithRelations) (q : ℤ) (h1 : q ≠ m.playerOneId) (h2 : q ≠ m.playerTwoId) :
    entryRating (processMatch Ea E m) q = entryRating E q := by
  simp only [processMatch]
  rw [entryRating_updateEntry_ne]
  case hf => intro e; rfl
  case hne => exact h2
  rw [entryRating_updateEntry_ne]
  case hf => intro e; rfl
  case hne => exact h1

theorem matchDeltaFor_cons (t : ℤ × ℤ × ℤ) (ds : List (ℤ × ℤ × ℤ)) (mid : ℤ) :
    matchDeltaFor (t :: ds) mid = if t.1 = mid then t.2 else matchDeltaFor ds mid := by
  unfold matchDeltaFor
  by_cases h : t.1 = mid
  · simp [List.find?, h]
  · simp only [List.find?, if_neg h]
    rw [show (t.1 == mid) = false from by rw [beq_eq_false_iff_ne]; exact h]

theorem deltaFold_shift (Ea : ℤ → ℤ → ℚ) (l : List MatchWithRelations)
    (R : List (ℤ × ℤ)) (ds : List (ℤ × ℤ × ℤ)) :
    l.foldl (deltaStep Ea) (R, ds) =
      ((l.foldl (deltaStep Ea) (R, [])).1, ds ++ (l.foldl (deltaStep Ea) (R, [])).2) := by
  induction l generalizing R ds with
  | nil => simp
  | cons m rest ih =>
    rw [List.foldl_cons, List.foldl_cons]
    have hstep : deltaStep Ea (R, ds) m =
        ((deltaStep Ea (R, []) m).1, ds ++ (deltaStep Ea (R, []) m).2) := by
      simp [deltaStep]
    rw [hstep, ih]
    conv_rhs => rw [show deltaStep Ea (R, []) m =
        ((deltaStep Ea (R, []) m).1, (deltaStep Ea (R, []) m).2) from rfl]
    rw [ih ((deltaStep Ea (R, []) m).1) ((deltaStep Ea (R, []) m).2)]
    simp

/-- Core refinement: over one chronologically sorted match list, the
standings engine and the delta engine keep pointwise equal ratings, and
the delta engine's rating is the starting rating plus the sum of the
emitted deltas credited to the player. -/
theorem engines_agree (Ea : ℤ → ℤ → ℚ) (l : List MatchWithRelations) :
    ∀ (E : List StatsEntry) (R : List (ℤ × ℤ)),
      (∀ m ∈ l, m.playerOneId ≠ m.playerTwoId) →
      (∀ m ∈ l, m.playerOneId ∈ entryKeys E ∧ m.playerTwoId ∈ entryKeys E) →
      (∀ p, entryRating E p = assocRating R p) →
      (l.map (fun m => m.id)).Nodup →
      (∀ p, entryRating (l.foldl (processMatch Ea) E) p =
        assocRating (l.foldl (deltaStep Ea) (R, [])).1 p) ∧
      (∀ p, assocRating (l.foldl (deltaStep Ea) (R, [])).1 p =
        assocRating R p +
          (l.map (deltaContrib (l.foldl (deltaStep Ea) (R, [])).2 p)).sum) := by
  induction l with
  | nil =>
    intro E R _ _ hinv _
    exact ⟨fun p => hinv p, fun p => by simp⟩
  | cons m rest ih =>
    intro E R hvalid hpres hinv hids
    have h12 : m.playerOneId ≠ m.playerTwoId := hvalid m (List.mem_cons_self m rest)
    have hp1 : m.playerOneId ∈ entryKeys E := (hpres m (List.mem_cons_self m rest)).1
    have hp2 : m.playerTwoId ∈ entryKeys E := (hpres m (List.mem_cons_self m rest)).2
    set Ra := assocRating R m.playerOneId with hRa
    set Rb := assocRating R m.playerTwoId with hRb
    set dA := round (K * ((if m.winnerId = m.playerOneId then (1 : ℚ) else 0) -
      Ea Ra Rb)) with hdA
    set dB := round (K * ((if m.winnerId = m.playerOneId then (0 : ℚ) else 1) -
      (1 - Ea Ra Rb))) with hdB
    have hstep : deltaStep Ea (R, ([] : List (ℤ × ℤ × ℤ))) m =
        (setRating (setRating R m.playerOneId (Ra + dA)) m.playerTwoId (Rb + dB),
          [(m.id, dA, dB)]) := rfl
    have hF1 : ∀ q, assocRating (deltaStep Ea (R, ([] : List (ℤ × ℤ × ℤ))) m).1 q =
        if q = m.playerTwoId then Rb + dB
        else if q = m.playerOneId then Ra + dA
        else assocRating R q := by
      intro q
      rw [hstep]
      by_cases hq2 : q = m.playerTwoId
      · rw [if_pos hq2]
        simp only [assocRating_setRating, if_pos hq2]
      · rw [if_neg hq2]
        by_cases hq1 : q = m.playerOneId
        · rw [if_pos hq1]
          simp only [assocRating_setRating, if_pos hq1, if_neg hq2]
        · rw [if_neg hq1]
          simp only [assocRating_setRating, if_neg hq1, if_neg hq2]
    have hE1 : entryRating E m.playerOneId = Ra := hinv m.playerOneId
    have hE2 : entryRating E m.playerTwoId = Rb := hinv m.playerTwoId
    have hnewinv : ∀ q, entryRating (processMatch Ea E m) q =
        assocRating (deltaStep Ea (R, ([] : List (ℤ × ℤ × ℤ))) m).1 q := by
      intro q
      rw [hF1 q]
      by_cases hq2 : q = m.playerTwoId
      · subst hq2
        rw [if_pos rfl]
        rw [processMatch_rating_two Ea E m
          (by obtain ⟨e0, he0, hk0⟩ := List.mem_map.mp hp2; exact ⟨e0, he0, hk0⟩)]
        rw [hE1, hE2, hdB]
        exact round_int_add _ Rb
      · rw [if_neg hq2]
        by_cases hq1 : q = m.playerOneId
        · subst hq1
          rw [if_pos rfl]
          rw [processMatch_rating_one Ea E m h12
            (by obtain ⟨e0, he0, hk0⟩ := List.mem_map.mp hp1; exact ⟨e0, he0, hk0⟩)]
          rw [hE1, hE2, hdA]
          exact round_int_add _ Ra
        · rw [if_neg hq1]
          rw [entryRating_processMatch_other Ea E m q hq1 hq2]
          exact hinv q
    have hvalid' : ∀ m' ∈ rest, m'.playerOneId ≠ m'.playerTwoId :=
      fun m' hm' => hvalid m' (List.mem_cons_of_mem m hm')
    have hpres' : ∀ m' ∈ rest, m'.playerOneId ∈ entryKeys (processMatch Ea E m) ∧
        m'.playerTwoId ∈ entryKeys (processMatch Ea E m) := by
      intro m' hm'
      rw [keys_processMatch]
      exact hpres m' (List.mem_cons_of_mem m hm')
    have hids' : (rest.map (fun m => m.id)).Nodup := by
      simp only [List.map_cons, List.nodup_cons] at hids
      exact hids.2
    have hmid : m.id ∉ rest.map (fun m => m.id) := by
      simp only [List.map_cons, List.nodup_cons] at hids
      exact hids.1
    obtain ⟨ihA, ihB⟩ := ih (processMatch Ea E m)
      (deltaStep Ea (R, ([] : List (ℤ × ℤ × ℤ))) m).1 hvalid' hpres' hnewinv hids'
    have hshift := deltaFold_shift Ea rest
      (deltaStep Ea (R, ([] : List (ℤ × ℤ × ℤ))) m).1
      (deltaStep Ea (R, ([] : List (ℤ × ℤ × ℤ))) m).2
    have hfold1 : ((m :: rest).foldl (deltaStep Ea) (R, [])).1 =
        (rest.foldl (deltaStep Ea)
          ((deltaStep Ea (R, ([] : List (ℤ × ℤ × ℤ))) m).1, [])).1 := by
      rw [List.foldl_cons]
      conv_lhs => rw [show deltaStep Ea (R, ([] : List (ℤ × ℤ × ℤ))) m =
        ((deltaStep Ea (R, ([] : List (ℤ × ℤ × ℤ))) m).1,
          (deltaStep Ea (R, ([] : List (ℤ × ℤ × ℤ))) m).2) from rfl]
      rw [hshift]
    have hfold2 : ((m :: rest).foldl (deltaStep Ea) (R, [])).2 =
        (m.id, dA, dB) :: (rest.foldl (deltaStep Ea)
          ((deltaStep Ea (R, ([] : List (ℤ × ℤ × ℤ))) m).1, [])).2 := by
      rw [List.foldl_cons]
      conv_lhs => rw [show deltaStep Ea (R, ([] : List (ℤ × ℤ × ℤ))) m =
        ((deltaStep Ea (R, ([] : List (ℤ × ℤ × ℤ))) m).1,
          (deltaStep Ea (R, ([] : List (ℤ × ℤ × ℤ))) m).2) from rfl]
      rw [hshift]
      rw [show (deltaStep Ea (R, ([] : List (ℤ × ℤ × ℤ))) m).2 = [(m.id, dA, dB)] from by
        rw [hstep]]
      rfl
    constructor
    · intro p
      rw [List.foldl_cons, ihA p, hfold1]
    · intro p
      rw [hfold1, hfold2]
      rw [ihB p]
      have hhead : deltaContrib ((m.id, dA, dB) ::
          (rest.foldl (deltaStep Ea)
            ((deltaStep Ea (R, ([] : List (ℤ × ℤ × ℤ))) m).1, [])).2) p m =
          (if m.playerOneId = p then dA else 0) + (if m.playerTwoId = p then dB else 0) := by
        unfold deltaContrib
        rw [matchDeltaFor_cons]
        rw [if_pos rfl]
      have htail : ∀ m' ∈ rest, deltaContrib ((m.id, dA, dB) ::
          (rest.foldl (deltaStep Ea)
            ((deltaStep Ea (R, ([] : List (ℤ × ℤ × ℤ))) m).1, [])).2) p m' =
          deltaContrib ((rest.foldl (deltaStep Ea)
            ((deltaStep Ea (R, ([] : List (ℤ × ℤ × ℤ))) m).1, [])).2) p m' := by
        intro m' hm'
        unfold deltaContrib
        rw [matchDeltaFor_cons]
        rw [if_neg (show ¬ ((m.id, dA, dB).1 = m'.id) from fun hcontra =>
          hmid (by rw [show m.id = m'.id from hcontra]
                   exact List.mem_map_of_mem (fun m => m.id) hm'))]
      rw [List.map_cons, List.sum_cons, hhead,
        List.map_congr_left htail]
      have hR1 : assocRating (deltaStep Ea (R, ([] : List (ℤ × ℤ × ℤ))) m).1 p =
          assocRating R p +
            ((if m.playerOneId = p then dA else 0) +
              (if m.playerTwoId = p then dB else 0)) := by
        rw [hF1 p]
        by_cases hq2 : p = m.playerTwoId
        · subst hq2
          rw [if_pos rfl, if_pos rfl]
          rw [if_neg (fun hcontra => h12 hcontra)]
          rw [← hRb]
          ring
        · rw [if_neg hq2]
          by_cases hq1 : p = m.playerOneId
          · subst hq1
            rw [if_pos rfl, if_pos rfl]
            rw [if_neg (fun hcontra => hq2 hcontra.symm)]
            rw [← hRa]
            ring
          · rw [if_neg hq1, if_neg (fun hcontra => hq1 hcontra.symm),
              if_neg (fun hcontra => hq2 hcontra.symm)]
            ring
      rw [hR1]
      ring

theorem entryRating_initStatsMap (ms : List MatchWithRelations) (p : ℤ) :
    entryRating (initStatsMap ms) p = BASE_RATING := by
  unfold entryRating
  cases hfind : (initStatsMap ms).find? (fun e => e.playerId == p) with
  | none => rfl
  | some e => exact initStatsMap_rating ms e (List.mem_of_find?_eq_some hfind)

theorem deltaFold_ids (Ea : ℤ → ℤ → ℚ) (l : List MatchWithRelations) :
    ∀ R : List (ℤ × ℤ),
      ((l.foldl (deltaStep Ea) (R, [])).2).map (fun d => d.1) =
        l.map (fun m => m.id) := by
  induction l with
  | nil => intro R; rfl
  | cons m rest ihl =>
    intro R
    rw [List.foldl_cons]
    conv_lhs => rw [show deltaStep Ea (R, ([] : List (ℤ × ℤ × ℤ))) m =
      ((deltaStep Ea (R, ([] : List (ℤ × ℤ × ℤ))) m).1,
        (deltaStep Ea (R, ([] : List (ℤ × ℤ × ℤ))) m).2) from rfl,
      deltaFold_shift]
    rw [List.map_append]
    rw [show ((deltaStep Ea (R, ([] : List (ℤ × ℤ × ℤ))) m).2).map (fun d => d.1) =
      [m.id] from rfl]
    rw [ihl ((deltaStep Ea (R, ([] : List (ℤ × ℤ × ℤ))) m).1)]
    rfl

theorem deltasForSeason_ids (Ea : ℤ → ℤ → ℚ) (g : List MatchWithRelations) :
    (deltasForSeason Ea g).map (fun d => d.1) =
      (sortByPlayedAt g).map (fun m => m.id) :=
  deltaFold_ids Ea (sortByPlayedAt g) []

theorem groupKeys_complete (ms : List MatchWithRelations) :
    ∀ m ∈ ms, seasonKey m ∈ groupKeys ms := by
  unfold groupKeys
  suffices h : ∀ acc : List ℤ,
      (∀ k ∈ acc, k ∈ ms.foldl
        (fun ks m => if seasonKey m ∈ ks then ks else ks ++ [seasonKey m]) acc) ∧
      ∀ m ∈ ms, seasonKey m ∈ ms.foldl
        (fun ks m => if seasonKey m ∈ ks then ks else ks ++ [seasonKey m]) acc by
    exact (h []).2
  induction ms with
  | nil => intro acc; exact ⟨fun k hk => hk, by simp⟩
  | cons m rest ih =>
    intro acc
    rw [List.foldl_cons]
    have hsub : ∀ k ∈ acc,
        k ∈ (if seasonKey m ∈ acc then acc else acc ++ [seasonKey m]) := by
      intro k hk
      split_ifs <;> simp [hk]
    have hm : seasonKey m ∈ (if seasonKey m ∈ acc then acc else acc ++ [seasonKey m]) := by
      split_ifs with h <;> simp [h]
    obtain ⟨ih1, ih2⟩ := ih (if seasonKey m ∈ acc then acc else acc ++ [seasonKey m])
    refine ⟨fun k hk => ih1 k (hsub k hk), ?_⟩
    intro m' hm'
    rcases List.mem_cons.mp hm' with rfl | hm'
    · exact ih1 _ hm
    · exact ih2 m' hm'

theorem mem_seasonGroup (ms : List MatchWithRelations) (sid : ℤ)
    (m : MatchWithRelations) :
    m ∈ seasonGroup ms sid ↔ m ∈ ms ∧ seasonKey m = sid := by
  unfold seasonGroup
  rw [List.mem_filter]
  simp

theorem deltasForSeason_find_none (Ea : ℤ → ℤ → ℚ) (ms : List MatchWithRelations)
    (sid' mid : ℤ)
    (hno : ∀ m' ∈ ms, seasonKey m' = sid' → m'.id ≠ mid) :
    (deltasForSeason Ea (seasonGroup ms sid')).find? (fun d => d.1 == mid) = none := by
  rw [List.find?_eq_none]
  intro d hd hbe
  simp only [beq_iff_eq] at hbe
  have hd1 : d.1 ∈ (deltasForSeason Ea (seasonGroup ms sid')).map (fun d => d.1) :=
    List.mem_map_of_mem _ hd
  rw [deltasForSeason_ids] at hd1
  obtain ⟨m', hm', hid⟩ := List.mem_map.mp hd1
  have hm'g : m' ∈ seasonGroup ms sid' := (List.mem_insertionSort _).mp hm'
  obtain ⟨hm'ms, hm'key⟩ := (mem_seasonGroup ms sid' m').mp hm'g
  exact hno m' hm'ms hm'key (hid.trans hbe)

theorem find_flat (Ea : ℤ → ℤ → ℚ) (ms : List MatchWithRelations) (sid mid : ℤ)
    (keys : List ℤ)
    (hblocks : ∀ sid' ∈ keys, sid' ≠ sid →
      (deltasForSeason Ea (seasonGroup ms sid')).find? (fun d => d.1 == mid) = none) :
    (keys.flatMap (fun sid' => deltasForSeason Ea (seasonGroup ms sid'))).find?
        (fun d => d.1 == mid) =
      if sid ∈ keys then
        (deltasForSeason Ea (seasonGroup ms sid)).find? (fun d => d.1 == mid)
      else none := by
  induction keys with
  | nil => simp
  | cons k keys ihk =>
    rw [List.flatMap_cons, List.find?_append]
    have ihk' := ihk (fun sid' hs hne => hblocks sid' (List.mem_cons_of_mem k hs) hne)
    by_cases hk : k = sid
    · subst hk
      rw [if_pos (List.mem_cons_self k keys)]
      rw [ihk']
      cases hdsg : (deltasForSeason Ea (seasonGroup ms k)).find? (fun d => d.1 == mid) with
      | some x => rfl
      | none =>
        simp only [Option.none_or]
        split_ifs <;> rfl
    · rw [hblocks k (List.mem_cons_self k keys) hk]
      rw [ihk']
      simp only [Option.none_or]
      by_cases hmem : sid ∈ keys
      · rw [if_pos hmem, if_pos (List.mem_cons_of_mem k hmem)]
      · rw [if_neg hmem, if_neg (fun hc => by
          rcases List.mem_cons.mp hc with rfl | hc'
          · exact hk rfl
          · exact hmem hc')]

theorem matchDeltaFor_computeEloDeltas (Ea : ℤ → ℤ → ℚ)
    (ms : List MatchWithRelations) (m : MatchWithRelations) (hm : m ∈ ms)
    (hids : (ms.map (fun m => m.id)).Nodup) :
    matchDeltaFor (computeEloDeltas Ea ms) m.id =
      matchDeltaFor (deltasForSeason Ea (seasonGroup ms (seasonKey m))) m.id := by
  have hblocks : ∀ sid' ∈ groupKeys ms, sid' ≠ seasonKey m →
      (deltasForSeason Ea (seasonGroup ms sid')).find? (fun d => d.1 == m.id) = none := by
    intro sid' hs hne
    apply deltasForSeason_find_none
    intro m' hm'ms hm'key hcontra
    have : m' = m := List.inj_on_of_nodup_map hids hm'ms hm hcontra
    subst this
    exact hne hm'key.symm
  unfold matchDeltaFor computeEloDeltas
  rw [find_flat Ea ms (seasonKey m) m.id (groupKeys ms) hblocks,
    if_pos (groupKeys_complete ms m hm)]

theorem find?_unique_by {α : Type} (key : α → ℤ) (l : List α)
    (hnd : (l.map key).Nodup) (x : α) (hx : x ∈ l) (p : ℤ) (hp : key x = p) :
    l.find? (fun y => key y == p) = some x := by
  induction l with
  | nil => cases hx
  | cons a t ihl =>
    simp only [List.map_cons, List.nodup_cons] at hnd
    rcases List.mem_cons.mp hx with rfl | hx'
    · exact List.find?_cons_of_pos _ (by simpa using hp)
    · by_cases ha : key a = p
      · exfalso
        apply hnd.1
        rw [show key a = key x from ha.trans hp.symm]
        exact List.mem_map_of_mem key hx'
      · rw [List.find?_cons_of_neg _ (by simpa using ha)]
        exact ihl hnd.2 hx'

theorem standingRating_eq_entryRating (Ea : ℤ → ℤ → ℚ) (g : List MatchWithRelations)
    (p : ℤ) (hp : appearsIn g p) :
    standingRating (calculateSeasonStandings Ea g) p =
      some (entryRating ((sortByPlayedAt g).foldl (processMatch Ea) (initStatsMap g)) p) := by
  obtain ⟨hnd0, hmem0⟩ := initStatsMap_keys g
  obtain ⟨m, hm, hside⟩ := hp
  have hpk : p ∈ entryKeys (initStatsMap g) := by
    rcases hside with h | h
    · exact h ▸ (hmem0 m hm).1
    · exact h ▸ (hmem0 m hm).2
  have hkeys : entryKeys ((sortByPlayedAt g).foldl (processMatch Ea) (initStatsMap g)) =
      entryKeys (initStatsMap g) := keys_foldl_processMatch Ea (sortByPlayedAt g) _
  have hndF : (((sortByPlayedAt g).foldl (processMatch Ea)
      (initStatsMap g)).map (fun e => e.playerId)).Nodup := by
    show (entryKeys ((sortByPlayedAt g).foldl (processMatch Ea)
      (initStatsMap g))).Nodup
    rw [hkeys]
    exact hnd0
  have hpkF : p ∈ ((sortByPlayedAt g).foldl (processMatch Ea)
      (initStatsMap g)).map (fun e => e.playerId) := by
    show p ∈ entryKeys ((sortByPlayedAt g).foldl (processMatch Ea)
      (initStatsMap g))
    rw [hkeys]
    exact hpk
  obtain ⟨e0, he0, hke0⟩ := List.mem_map.mp hpkF
  have hfindE : ((sortByPlayedAt g).foldl (processMatch Ea)
      (initStatsMap g)).find? (fun e => e.playerId == p) = some e0 :=
    find?_unique_by (fun e => e.playerId) _ hndF e0 he0 p hke0
  have hvalE : entryRating ((sortByPlayedAt g).foldl (processMatch Ea)
      (initStatsMap g)) p = e0.rating := by
    unfold entryRating
    rw [hfindE]
  have hpermS : List.Perm (calculateSeasonStandings Ea g)
      ((((sortByPlayedAt g).foldl (processMatch Ea) (initStatsMap g))).map toStanding) := by
    simp only [calculateSeasonStandings]
    exact List.perm_insertionSort _ _
  have hmapkeys : (((((sortByPlayedAt g).foldl (processMatch Ea)
      (initStatsMap g))).map toStanding).map (fun s => s.playerId)) =
      entryKeys ((sortByPlayedAt g).foldl (processMatch Ea) (initStatsMap g)) := by
    rw [List.map_map]
    exact List.map_congr_left (fun e _ => rfl)
  have hndS : ((calculateSeasonStandings Ea g).map (fun s => s.playerId)).Nodup := by
    rw [(hpermS.map (fun s => s.playerId)).nodup_iff]
    rw [hmapkeys]
    exact hndF
  have hmemS : toStanding e0 ∈ calculateSeasonStandings Ea g :=
    hpermS.mem_iff.mpr (List.mem_map_of_mem toStanding he0)
  have hfindS := find?_unique_by (fun s => s.playerId)
    (calculateSeasonStandings Ea g) hndS (toStanding e0) hmemS p
    (by simpa [toStanding] using hke0)
  unfold standingRating
  rw [hfindS]
  simp only [Option.map_some']
  rw [show (toStanding e0).rating = e0.rating from rfl, hvalE]

/-- C2.  The per-match deltas of `computeEloDeltas` are consistent with
the standings engine: for every season group of the match list and
every player appearing in it (stored matches have unique ids and
distinct sides), 1000 plus the sum of that player's
`playerOneEloDelta`/`playerTwoEloDelta` values over the season's
matches equals the final rating `calculateSeasonStandings` computes for
the player from the same season's matches — rating update via
`round(Ra + K*(Sa-Ea))` and delta accumulation via
`Ra + round(K*(Sa-Ea))` agree because the running rating is an
integer. -/
theorem C2_delta_consistency (Ea : ℤ → ℤ → ℚ) (ms : List MatchWithRelations)
    (sid p : ℤ) (hids : (ms.map (fun m => m.id)).Nodup)
    (hvalid : ∀ m ∈ ms, m.playerOneId ≠ m.playerTwoId)
    (hp : appearsIn (seasonGroup ms sid) p) :
    standingRating (calculateSeasonStandings Ea (seasonGroup ms sid)) p =
      some (BASE_RATING +
        playerDeltaSum (computeEloDeltas Ea ms) (seasonGroup ms sid) p) := by
  have hgsub : ∀ m ∈ seasonGroup ms sid, m ∈ ms ∧ seasonKey m = sid :=
    fun m hm => (mem_seasonGroup ms sid m).mp hm
  have hids_g : ((seasonGroup ms sid).map (fun m => m.id)).Nodup := by
    have hsub : List.Sublist ((seasonGroup ms sid).map (fun m => m.id))
        (ms.map (fun m => m.id)) := (List.filter_sublist ms).map _
    exact hids.sublist hsub
  have hids_sorted : ((sortByPlayedAt (seasonGroup ms sid)).map
      (fun m => m.id)).Nodup := by
    have hperm := (List.perm_insertionSort
      (fun a b : MatchWithRelations => a.playedAt ≤ b.playedAt)
      (seasonGroup ms sid)).map (fun m => m.id)
    exact hperm.nodup_iff.mpr hids_g
  obtain ⟨hnd0, hmem0⟩ := initStatsMap_keys (seasonGroup ms sid)
  have hvalid_sorted : ∀ m ∈ sortByPlayedAt (seasonGroup ms sid),
      m.playerOneId ≠ m.playerTwoId := by
    intro m hm
    exact hvalid m (hgsub m ((List.mem_insertionSort _).mp hm)).1
  have hpres_sorted : ∀ m ∈ sortByPlayedAt (seasonGroup ms sid),
      m.playerOneId ∈ entryKeys (initStatsMap (seasonGroup ms sid)) ∧
      m.playerTwoId ∈ entryKeys (initStatsMap (seasonGroup ms sid)) := by
    intro m hm
    exact hmem0 m ((List.mem_insertionSort _).mp hm)
  have hinv0 : ∀ q, entryRating (initStatsMap (seasonGroup ms sid)) q =
      assocRating [] q := by
    intro q
    rw [entryRating_initStatsMap]
    rfl
  obtain ⟨hA, hB⟩ := engines_agree Ea (sortByPlayedAt (seasonGroup ms sid))
    (initStatsMap (seasonGroup ms sid)) [] hvalid_sorted hpres_sorted hinv0 hids_sorted
  rw [standingRating_eq_entryRating Ea (seasonGroup ms sid) p hp]
  rw [hA p, hB p]
  have hcongr : ∀ m ∈ seasonGroup ms sid,
      deltaContrib (computeEloDeltas Ea ms) p m =
      deltaContrib (deltasForSeason Ea (seasonGroup ms sid)) p m := by
    intro m hm
    unfold deltaContrib
    rw [matchDeltaFor_computeEloDeltas Ea ms m (hgsub m hm).1 hids, (hgsub m hm).2]
  unfold playerDeltaSum
  rw [List.map_congr_left hcongr]
  rw [show assocRating ([] : List (ℤ × ℤ)) p = BASE_RATING from rfl]
  rw [show ((sortByPlayedAt (seasonGroup ms sid)).foldl (deltaStep Ea)
      (([] : List (ℤ × ℤ)), ([] : List (ℤ × ℤ × ℤ)))).2 =
    deltasForSeason Ea (seasonGroup ms sid) from rfl]
  exact congrArg (fun t => some (BASE_RATING + t))
    (((List.perm_insertionSort
      (fun a b : MatchWithRelations => a.playedAt ≤ b.playedAt)
      (seasonGroup ms sid)).map
      (deltaContrib (deltasForSeason Ea (seasonGroup ms sid)) p)).sum_eq)

/-- Witness for C2: two stored matches in one season between players 1
and 2; player 1's final rating equals 1000 plus the sum of player 1's
per-match deltas. -/
theorem C2_delta_consistency_witness :
    standingRating (calculateSeasonStandings halfEa
        (seasonGroup [demoMatch, demoMatch2] 7)) 1 =
      some (BASE_RATING +
        playerDeltaSum (computeEloDeltas halfEa [demoMatch, demoMatch2])
          (seasonGroup [demoMatch, demoMatch2] 7) 1) :=
  C2_delta_consistency halfEa [demoMatch, demoMatch2] 7 1 (by decide) (by decide)
    (by decide)

/-! ## Season-partition lemmas (claim C7) -/

theorem daysInMonth_le (y : ℤ) (m : ℕ) : daysInMonth y m ≤ 31 := by
  unfold daysInMonth
  split_ifs <;> omega

theorem daysInMonth_pos (y : ℤ) (m : ℕ) : 1 ≤ daysInMonth y m := by
  unfold daysInMonth
  split_ifs <;> omega

theorem key_lt_of_month_lt (d e : SDate) (hd : ValidDate d) (he : ValidDate e)
    (h : d.year * 12 + (d.month : ℤ) < e.year * 12 + (e.month : ℤ)) :
    d.key < e.key := by
  unfold ValidDate at hd he
  obtain ⟨hdm, hdd1, hdd2, hdh, hdmin, hds, hdms⟩ := hd
  obtain ⟨hem, hed1, hed2, heh, hemin, hes, hems⟩ := he
  have hd31 : d.day ≤ 31 := le_trans hdd2 (daysInMonth_le d.year d.month)
  have he31 : e.day ≤ 31 := le_trans hed2 (daysInMonth_le e.year e.month)
  unfold SDate.key
  omega

theorem seasonContains_month (y : ℤ) (m : ℕ) (hm : m ≤ 11) (s : SeasonRec)
    (hs1 : s.startDate = ⟨y, m, 1, 0, 0, 0, 0⟩)
    (hs2 : s.endDate = ⟨y, m, daysInMonth y m, 23, 59, 59, 999⟩)
    (d : SDate) (hd : ValidDate d) :
    seasonContains s d = true ↔ (d.year = y ∧ d.month = m) := by
  have hvs : ValidDate (⟨y, m, 1, 0, 0, 0, 0⟩ : SDate) := by
    unfold ValidDate
    exact ⟨hm, le_refl 1, daysInMonth_pos y m, Nat.zero_le 23, Nat.zero_le 59,
      Nat.zero_le 59, Nat.zero_le 999⟩
  have hve : ValidDate (⟨y, m, daysInMonth y m, 23, 59, 59, 999⟩ : SDate) := by
    unfold ValidDate
    exact ⟨hm, daysInMonth_pos y m, le_refl _, le_refl 23, le_refl 59, le_refl 59,
      le_refl 999⟩
  unfold seasonContains
  rw [hs1, hs2]
  simp only [Bool.and_eq_true, decide_eq_true_eq]
  constructor
  · rintro ⟨hk1, hk2⟩
    have hd' := hd
    unfold ValidDate at hd'
    have hdm := hd'.1
    rcases lt_trichotomy (d.year * 12 + (d.month : ℤ)) (y * 12 + (m : ℤ)) with hlt | heq | hgt
    · exact absurd hk1 (not_le.mpr (key_lt_of_month_lt d _ hd hvs hlt))
    · exact ⟨by omega, by omega⟩
    · exact absurd hk2 (not_le.mpr (key_lt_of_month_lt _ d hve hd hgt))
  · rintro ⟨hy, hmm⟩
    have hd' := hd
    unfold ValidDate at hd'
    obtain ⟨hA, hB, hC, hD, hE2, hF, hG⟩ := hd'
    rw [hy, hmm] at hC
    show ((((((y * 12 + (m : ℤ)) * 32 + 1) * 24 + 0) * 60 + 0) * 60 + 0) * 1000 + 0) ≤
        SDate.key d ∧
      SDate.key d ≤
        ((((((y * 12 + (m : ℤ)) * 32 + ((daysInMonth y m : ℕ) : ℤ)) * 24 + 23) * 60 + 59) *
          60 + 59) * 1000 + 999)
    unfold SDate.key
    refine ⟨?_, ?_⟩ <;> omega

theorem find?_ext {α : Type} (p q : α → Bool) (l : List α)
    (h : ∀ a ∈ l, p a = q a) : l.find? p = l.find? q := by
  induction l with
  | nil => rfl
  | cons a l ih =>
    have hqa := h a (List.mem_cons_self a l)
    cases hpa : p a with
    | true =>
      rw [List.find?_cons_of_pos _ hpa, List.find?_cons_of_pos _ (hqa ▸ hpa)]
    | false =>
      have hqa' : q a = false := hqa ▸ hpa
      rw [List.find?_cons_of_neg _ (by simp [hpa]), List.find?_cons_of_neg _ (by simp [hqa'])]
      exact ih (fun b hb => h b (List.mem_cons_of_mem a hb))

theorem getOrCreate_of_found (d : SDate) (st : SeasonState) (s : SeasonRec)
    (hf : st.seasons.find? (fun r => seasonContains r d) = some s) :
    getOrCreateSeasonForDate d st = (s, st) := by
  unfold getOrCreateSeasonForDate
  rw [hf]

theorem getOrCreate_of_none (d : SDate) (st : SeasonState)
    (hf : st.seasons.find? (fun r => seasonContains r d) = none) :
    getOrCreateSeasonForDate d st =
      (newSeason d st.nextId,
       { seasons := st.seasons ++ [newSeason d st.nextId], nextId := st.nextId + 1 }) := by
  unfold getOrCreateSeasonForDate
  rw [hf]
  rfl

theorem getOrCreate_boundaries (d : SDate) (st : SeasonState)
    (hwf : SeasonsWF st) (hd : ValidDate d) :
    (getOrCreateSeasonForDate d st).1.startDate = ⟨d.year, d.month, 1, 0, 0, 0, 0⟩ ∧
    (getOrCreateSeasonForDate d st).1.endDate =
      ⟨d.year, d.month, daysInMonth d.year d.month, 23, 59, 59, 999⟩ ∧
    SeasonsWF (getOrCreateSeasonForDate d st).2 := by
  cases hf : st.seasons.find? (fun r => seasonContains r d) with
  | some s =>
    rw [getOrCreate_of_found d st s hf]
    obtain ⟨y, m, hm11, hb1, hb2⟩ := hwf s (List.mem_of_find?_eq_some hf)
    have hps := List.find?_some hf
    obtain ⟨hy, hmm⟩ := (seasonContains_month y m hm11 s hb1 hb2 d hd).mp hps
    refine ⟨?_, ?_, hwf⟩
    · show s.startDate = _
      rw [hb1, hy, hmm]
    · show s.endDate = _
      rw [hb2, hy, hmm]
  | none =>
    rw [getOrCreate_of_none d st hf]
    refine ⟨rfl, rfl, ?_⟩
    intro r hr
    rcases List.mem_append.mp hr with h | h
    · exact hwf r h
    · rw [List.mem_singleton.mp h]
      have hd' := hd
      unfold ValidDate at hd'
      exact ⟨d.year, d.month, hd'.1, rfl, rfl⟩

theorem find_after_call (d₁ d₂ : SDate) (st : SeasonState) (hwf : SeasonsWF st)
    (h1 : ValidDate d₁) (h2 : ValidDate d₂)
    (hy : d₂.year = d₁.year) (hm : d₂.month = d₁.month) :
    ((getOrCreateSeasonForDate d₁ st).2).seasons.find? (fun r => seasonContains r d₂) =
      some (getOrCreateSeasonForDate d₁ st).1 := by
  have hpt : ∀ r, MonthSeason r → seasonContains r d₂ = seasonContains r d₁ := by
    intro r hms
    obtain ⟨y, m, hm11, hb1, hb2⟩ := hms
    have c1 := seasonContains_month y m hm11 r hb1 hb2 d₁ h1
    have c2 := seasonContains_month y m hm11 r hb1 hb2 d₂ h2
    cases hcs : seasonContains r d₁ with
    | true =>
      have hys := c1.mp hcs
      exact c2.mpr ⟨hy.trans hys.1, hm.trans hys.2⟩
    | false =>
      cases hcs2 : seasonContains r d₂ with
      | true =>
        have h3 := c2.mp hcs2
        have hcontra : seasonContains r d₁ = true := c1.mpr ⟨hy ▸ h3.1, hm ▸ h3.2⟩
        rw [hcs] at hcontra
        cases hcontra
      | false => rfl
  have hext : st.seasons.find? (fun r => seasonContains r d₂) =
      st.seasons.find? (fun r => seasonContains r d₁) :=
    find?_ext _ _ _ (fun r hr => hpt r (hwf r hr))
  cases hf : st.seasons.find? (fun r => seasonContains r d₁) with
  | some s =>
    rw [getOrCreate_of_found d₁ st s hf]
    show st.seasons.find? (fun r => seasonContains r d₂) = some s
    rw [hext, hf]
  | none =>
    rw [getOrCreate_of_none d₁ st hf]
    show (st.seasons ++ [newSeason d₁ st.nextId]).find? (fun r => seasonContains r d₂) =
      some (newSeason d₁ st.nextId)
    have h1' := h1
    unfold ValidDate at h1'
    have hpos : seasonContains (newSeason d₁ st.nextId) d₂ = true :=
      (seasonContains_month d₁.year d₁.month h1'.1 _ rfl rfl d₂ h2).mpr ⟨hy, hm⟩
    rw [List.find?_append, hext, hf]
    simp [List.find?, hpos]

theorem getOrCreate_same_month (d₁ d₂ : SDate) (st : SeasonState) (hwf : SeasonsWF st)
    (h1 : ValidDate d₁) (h2 : ValidDate d₂)
    (hy : d₂.year = d₁.year) (hm : d₂.month = d₁.month) :
    getOrCreateSeasonForDate d₂ (getOrCreateSeasonForDate d₁ st).2 =
      ((getOrCreateSeasonForDate d₁ st).1, (getOrCreateSeasonForDate d₁ st).2) :=
  getOrCreate_of_found d₂ _ _ (find_after_call d₁ d₂ st hwf h1 h2 hy hm)

/-- C7.  Season partitioning, from any well-formed season table: the
season resolved for a valid timestamp spans exactly the calendar month
containing it (start = first instant of the month, end = 23:59:59.999
of its last day, local time); two timestamps in the same calendar
month resolve sequentially to the same season row, the second call
changing nothing (idempotence); and a timestamp on the last day of a
month and a timestamp on the first day of the following month
(December rollover included) resolve to two distinct seasons. -/
theorem C7_season_partition (st : SeasonState) (hwf : SeasonsWF st) :
    (∀ d : SDate, ValidDate d →
      (getOrCreateSeasonForDate d st).1.startDate =
          ⟨d.year, d.month, 1, 0, 0, 0, 0⟩ ∧
        (getOrCreateSeasonForDate d st).1.endDate =
          ⟨d.year, d.month, daysInMonth d.year d.month, 23, 59, 59, 999⟩) ∧
    (∀ d₁ d₂ : SDate, ValidDate d₁ → ValidDate d₂ →
      d₂.year = d₁.year → d₂.month = d₁.month →
      getOrCreateSeasonForDate d₂ (getOrCreateSeasonForDate d₁ st).2 =
        ((getOrCreateSeasonForDate d₁ st).1, (getOrCreateSeasonForDate d₁ st).2)) ∧
    (∀ d₁ d₂ : SDate, ValidDate d₁ → ValidDate d₂ →
      d₁.day = daysInMonth d₁.year d₁.month → d₂.day = 1 →
      d₂.year * 12 + (d₂.month : ℤ) = d₁.year * 12 + (d₁.month : ℤ) + 1 →
      (getOrCreateSeasonForDate d₂ (getOrCreateSeasonForDate d₁ st).2).1 ≠
        (getOrCreateSeasonForDate d₁ st).1) := by
  refine ⟨?_, ?_, ?_⟩
  · intro d hd
    exact ⟨(getOrCreate_boundaries d st hwf hd).1,
           (getOrCreate_boundaries d st hwf hd).2.1⟩
  · intro d₁ d₂ h1 h2 hy hm
    exact getOrCreate_same_month d₁ d₂ st hwf h1 h2 hy hm
  · intro d₁ d₂ h1 h2 hld hfd hidx heq
    have hA := getOrCreate_boundaries d₁ st hwf h1
    have hB := getOrCreate_boundaries d₂ _ hA.2.2 h2
    have e2 := hB.1
    rw [heq, hA.1] at e2
    injection e2 with ey em e3 e4 e5 e6 e7
    have h1' := h1
    have h2' := h2
    unfold ValidDate at h1' h2'
    have hm1 := h1'.1
    have hm2 := h2'.1
    omega

/-- Witness for C7 from the empty season table: a match on 1 January
2024 and one on 28 January 2024 resolve sequentially to the same
season with no second write, while a match on 31 January 2024 and one
on 1 February 2024 resolve to distinct seasons. -/
theorem C7_season_partition_witness :
    (getOrCreateSeasonForDate ⟨2024, 0, 28, 12, 0, 0, 0⟩
        (getOrCreateSeasonForDate ⟨2024, 0, 1, 9, 30, 0, 0⟩ ⟨[], 0⟩).2 =
      ((getOrCreateSeasonForDate ⟨2024, 0, 1, 9, 30, 0, 0⟩ ⟨[], 0⟩).1,
       (getOrCreateSeasonForDate ⟨2024, 0, 1, 9, 30, 0, 0⟩ ⟨[], 0⟩).2)) ∧
    (getOrCreateSeasonForDate ⟨2024, 1, 1, 0, 0, 0, 0⟩
        (getOrCreateSeasonForDate ⟨2024, 0, 31, 23, 59, 59, 999⟩ ⟨[], 0⟩).2).1 ≠
      (getOrCreateSeasonForDate ⟨2024, 0, 31, 23, 59, 59, 999⟩ ⟨[], 0⟩).1 := by
  have h := C7_season_partition ⟨[], 0⟩ (fun s hs => absurd hs (List.not_mem_nil s))
  exact ⟨h.2.1 ⟨2024, 0, 1, 9, 30, 0, 0⟩ ⟨2024, 0, 28, 12, 0, 0, 0⟩
           (by decide) (by decide) rfl rfl,
         h.2.2 ⟨2024, 0, 31, 23, 59, 59, 999⟩ ⟨2024, 1, 1, 0, 0, 0, 0⟩
           (by decide) (by decide) (by decide) rfl (by decide)⟩

end PingPong
